import Mathlib

/-!
# Verification of the F1-predictor season feature pipeline

Shallow embedding of `src/GetSeasonData.py` (pandas pipeline) and proofs of the
spec claims C1..C10.

Modelling conventions, used consistently below:
* pandas `float` columns carry exact rationals (`ℚ`); a pandas `NaN` (missing
  value) is `Option.none`.  pandas arithmetic propagates `NaN`, which is the
  `optAdd`/`optSub`/`optMul` behaviour; `Series.mean` / `Series.min` skip `NaN`,
  which is `meanOpt` / `listMin` over the present values.
* a DataFrame is a list of rows; joins on the `Driver` key assume the usual
  per-table key uniqueness of the source data (each extractor emits one row per
  driver); `find?` realises the key lookup of a pandas merge.
* a raised-and-caught Python exception is an `Option`/`Except` failure value.
* the dynamic *column set* of a DataFrame matters in one place only — the
  rolling `groupby(...).agg` raises `KeyError` when an aggregated column never
  appeared in any concatenated round — so the assembled per-round table also
  records which session column groups are present (`ColsPresent`).
-/

/-- `NaN`-propagating addition: `a + b` is missing when either side is. -/
def optAdd : Option ℚ → Option ℚ → Option ℚ
  | some a, some b => some (a + b)
  | _, _ => none

/-- `NaN`-propagating subtraction. -/
def optSub : Option ℚ → Option ℚ → Option ℚ
  | some a, some b => some (a - b)
  | _, _ => none

/-- `NaN`-propagating multiplication (pandas: `NaN * 0 = NaN`). -/
def optMul : Option ℚ → Option ℚ → Option ℚ
  | some a, some b => some (a * b)
  | _, _ => none

/-- `pandas.Series.mean` over the present values: `NaN` (none) on an empty
series. -/
def meanOpt (xs : List ℚ) : Option ℚ :=
  if xs.isEmpty then none else some (xs.sum / xs.length)

/-- `pandas.Series.min` over the present values: `NaN` (none) on an empty
series. -/
def listMin : List ℚ → Option ℚ
  | [] => none
  | x :: xs =>
    match listMin xs with
    | none => some x
    | some m => some (min x m)

/-- `pandas.Series.max` over the present values. -/
def listMax : List ℚ → Option ℚ
  | [] => none
  | x :: xs =>
    match listMax xs with
    | none => some x
    | some m => some (max x m)

/-- Key deduplication keeping first occurrences, the key order a chain of
pandas outer merges produces (left table's keys first, then new right keys). -/
def dedupFirst : List String → List String
  | [] => []
  | x :: xs => x :: (dedupFirst xs).filter (fun y => decide (y ≠ x))

/-- Insertion step of the stable sort used to model `DataFrame.sort_values`
(ordering of tied rows is not load-bearing for any claim). -/
def insertLe {α : Type} (le : α → α → Bool) (x : α) : List α → List α
  | [] => [x]
  | y :: ys => if le x y then x :: y :: ys else y :: insertLe le x ys

/-- Insertion sort used to model `DataFrame.sort_values`. -/
def sortLe {α : Type} (le : α → α → Bool) : List α → List α
  | [] => []
  | x :: xs => insertLe le x (sortLe le xs)

/-- Comparison on an `Option ℚ` sort key with missing values last
(`sort_values` default `na_position="last"`). -/
def optLe : Option ℚ → Option ℚ → Bool
  | some a, some b => decide (a ≤ b)
  | some _, none => true
  | none, some _ => false
  | none, none => true

/-- `startsWithChars n h`: the char list `n` is an initial segment of `h`. -/
def startsWithChars : List Char → List Char → Bool
  | [], _ => true
  | _ :: _, [] => false
  | a :: as, b :: bs => a = b && startsWithChars as bs

/-- `hasSubChars n h`: `n` occurs contiguously inside `h`. -/
def hasSubChars (n : List Char) : List Char → Bool
  | [] => startsWithChars n []
  | b :: bs => startsWithChars n (b :: bs) || hasSubChars n bs

/-- Python's `n in s` substring test on strings. -/
def hasSub (n s : String) : Bool := hasSubChars n.data s.data

/-- `simplify_status` (GetSeasonData.py lines 137-144): contains "Finished" →
"Finished"; else contains "Lap" → "Lapped"; else "DNF". -/
def simplifyStatus (s : String) : String :=
  if hasSub "Finished" s then "Finished"
  else if hasSub "Lap" s then "Lapped"
  else "DNF"

/-- One row of a session's lap table (`session.laps` after the
`dt.total_seconds()` conversion).  `isQuick` is fastf1's external
`pick_quicklaps` classification; quick laps always carry a recorded time. -/
structure Lap where
  driver : String
  lapNumber : ℚ
  lapTime : Option ℚ
  isQuick : Bool
deriving DecidableEq, Repr

/-- One row of `session.results` for the race (`Abbreviation`, `Position`,
`Status`, `Time` in seconds; `Time = none` is an unrecorded elapsed time). -/
structure RaceResultRow where
  driver : String
  position : Option ℚ
  status : String
  time : Option ℚ
deriving DecidableEq, Repr

/-- The raw race session handed to `get_race_data`. -/
structure RaceSession where
  laps : List Lap
  results : List RaceResultRow
deriving DecidableEq, Repr

/-- `laps.pick_quicklaps()`. -/
def quicklapsOf (laps : List Lap) : List Lap := laps.filter (fun l => l.isQuick)

/-- Drivers appearing in the quick-lap table (`quicklaps.groupby("Driver")`;
group order is immaterial here, every use is keyed by driver). -/
def quickDrivers (laps : List Lap) : List String :=
  dedupFirst ((quicklapsOf laps).map (fun l => l.driver))

/-- A driver's mean quick-lap time
(`quicklaps.groupby("Driver")["LapTime"].mean()`): `NaN` with no quick laps. -/
def driverQuickMean (laps : List Lap) (d : String) : Option ℚ :=
  meanOpt (((quicklapsOf laps).filter (fun l => decide (l.driver = d))).filterMap
    (fun l => l.lapTime))

/-- `race_pace["RacePace"].min()`: the fastest mean race pace. -/
def fastestRacePace (laps : List Lap) : Option ℚ :=
  listMin ((quickDrivers laps).filterMap (fun d => driverQuickMean laps d))

/-- `compute_racetime` (GetSeasonData.py lines 149-164), for a given winner
time `wt` (= `winner_time`): `None` when the elapsed time is missing
(`DNF_Dummy == 1`); else base = winner time (+ recorded gap unless classified
position is 1), extended by `missing_laps * avg_quicklap` whenever the raw
status contains `"Lap"`. -/
def computeRacetime (laps : List Lap) (wt : Option ℚ) (row : RaceResultRow) : Option ℚ :=
  match row.time with
  | none => none
  | some t =>
    let completedLaps : ℚ := ((laps.filter (fun l => decide (l.driver = row.driver))).length : ℚ)
    let totalLaps : Option ℚ := listMax (laps.map (fun l => l.lapNumber))
    let missingLaps : Option ℚ := totalLaps.map (fun m => m - completedLaps)
    let avgQuicklap : Option ℚ := driverQuickMean laps row.driver
    let baseTime : Option ℚ :=
      if row.position = some 1 then wt else optAdd wt (some t)
    if hasSub "Lap" row.status then optAdd baseTime (optMul avgQuicklap missingLaps)
    else baseTime

/-- One row of the table `get_race_data` returns (the raw `Time` column is
dropped before returning). -/
structure RaceDataRow where
  driver : String
  finishingPosition : Option ℚ
  finishStatus : String
  dnfDummy : Nat
  raceTime : Option ℚ
  racePace : Option ℚ
  gapToFastestRacePace : Option ℚ
deriving DecidableEq, Repr

/-- The per-driver row built by `get_race_data` from a results row, merged
(left join on `Driver`) with the `race_pace` table. -/
def raceRowOf (s : RaceSession) (wt : Option ℚ) (r : RaceResultRow) : RaceDataRow :=
  { driver := r.driver
    finishingPosition := r.position
    finishStatus := simplifyStatus r.status
    dnfDummy := if r.time.isNone then 1 else 0
    raceTime := computeRacetime s.laps wt r
    racePace := driverQuickMean s.laps r.driver
    gapToFastestRacePace :=
      optSub (driverQuickMean s.laps r.driver) (fastestRacePace s.laps) }

/-- `get_race_data` (GetSeasonData.py lines 113-171).  The winner-time lookup
`results.loc[results["FinishingPosition"] == 1, "Time"].values[0]` raises
`IndexError` when no row has classified position 1; that raise is the `none`
branch here.  Rows are sorted by finishing position, missing last. -/
def getRaceData (s : RaceSession) : Option (List RaceDataRow) :=
  match s.results.find? (fun r => decide (r.position = some 1)) with
  | none => none
  | some w =>
    some (sortLe (fun a b => optLe a.finishingPosition b.finishingPosition)
      (s.results.map (raceRowOf s w.time)))

/-- The raw practice session handed to `get_fp_data` (the `results` merge in
the source adds no columns beyond `Driver`, so only laps are relevant). -/
structure FPSession where
  laps : List Lap
deriving DecidableEq, Repr

/-- `laps.dropna(subset=["LapTime"])`. -/
def validLaps (s : FPSession) : List Lap :=
  s.laps.filter (fun l => l.lapTime.isSome)

/-- A driver's single fastest valid practice lap
(`groupby("Driver").apply(nsmallest(1, "LapTime"))`). -/
def fastestLapOf (s : FPSession) (d : String) : Option ℚ :=
  listMin (((validLaps s).filter (fun l => decide (l.driver = d))).filterMap
    (fun l => l.lapTime))

/-- A driver's mean quick-lap pace within a practice session. -/
def fpQuickMean (s : FPSession) (d : String) : Option ℚ :=
  meanOpt ((((validLaps s).filter (fun l => l.isQuick)).filter
    (fun l => decide (l.driver = d))).filterMap (fun l => l.lapTime))

/-- One row of the table `get_fp_data` returns (column names in the source are
suffixed with the session kind; the suffix is restored at merge time). -/
structure FPRow where
  driver : String
  gapToFastest : ℚ
  position : Nat
  racePace : Option ℚ
deriving DecidableEq, Repr

/-- The `fastest_laps` table of `get_fp_data`: per driver with at least one
valid lap, that driver's fastest lap time.  (The source's groupby sorts the
drivers by name; only tied-gap row order depends on it, so the first-occurrence
order is used.) -/
def fpFastList (s : FPSession) : List (String × ℚ) :=
  (dedupFirst ((validLaps s).map (fun l => l.driver))).filterMap
    (fun d => (fastestLapOf s d).map (fun t => (d, t)))

/-- One output row of `get_fp_data` given the session-fastest time `m`:
`GapToFastest` is the driver's fastest lap minus `m`; `Position` is the
min-method rank of the gap (1 + number of strictly smaller gaps). -/
def fpRowOf (s : FPSession) (m : ℚ) (p : String × ℚ) : FPRow :=
  { driver := p.1
    gapToFastest := p.2 - m
    position := 1 + (((fpFastList s).map (fun q => q.2 - m)).filter
      (fun g => decide (g < p.2 - m))).length
    racePace := fpQuickMean s p.1 }

/-- `get_fp_data` (GetSeasonData.py lines 52-84): per driver with at least one
valid lap, gap of the fastest lap to the overall fastest, min-method rank of
that gap, mean quick-lap pace; rows sorted by gap. -/
def getFpData (s : FPSession) : List FPRow :=
  match listMin ((fpFastList s).map (fun p => p.2)) with
  | none => []
  | some m =>
    sortLe (fun a b => decide (a.gapToFastest ≤ b.gapToFastest))
      ((fpFastList s).map (fpRowOf s m))

/-- One row of `quali.results` after `dt.total_seconds()` on Q1/Q2/Q3. -/
structure QualiResultRow where
  driver : String
  position : Option ℚ
  q1 : Option ℚ
  q2 : Option ℚ
  q3 : Option ℚ
deriving DecidableEq, Repr

/-- The raw qualifying session handed to `get_quali_data`. -/
structure QualiSession where
  results : List QualiResultRow
deriving DecidableEq, Repr

/-- `results["Q3"].fillna(results["Q2"]).fillna(results["Q1"])`. -/
def qualiLapOf (r : QualiResultRow) : Option ℚ :=
  (r.q3.orElse (fun _ => r.q2)).orElse (fun _ => r.q1)

/-- `results["Q3"].dropna().min()`: the pole time (min over recorded Q3
times only). -/
def poleTime (s : QualiSession) : Option ℚ :=
  listMin (s.results.filterMap (fun r => r.q3))

/-- One row of the table `get_quali_data` returns. -/
structure QualiRow where
  driver : String
  positionQuali : Option ℚ
  qualiLap : Option ℚ
  gapToPole : Option ℚ
deriving DecidableEq, Repr

/-- `get_quali_data` (GetSeasonData.py lines 87-110): representative lap is
Q3 else Q2 else Q1; `GapToPole` is that lap minus the pole (minimum Q3) time;
rows sorted by classified qualifying position. -/
def getQualiData (s : QualiSession) : List QualiRow :=
  sortLe (fun a b => optLe a.positionQuali b.positionQuali)
    (s.results.map (fun r =>
      { driver := r.driver
        positionQuali := r.position
        qualiLap := qualiLapOf r
        gapToPole := optSub (qualiLapOf r) (poleTime s) }))

/-- One round's Ergast data as consumed by `get_driver_standings`: main-race
(driverCode, points) rows, and sprint rows when a sprint matching this round
exists (`sprint.content and sprint.description["round"][0] == rnd + 1`).
A fetch failure or empty `content` (the `temp.content[0]` IndexError) is
modelled by the round's entry being `none` in the round-indexed input. -/
structure ErgastRound where
  main : List (String × ℚ)
  sprint : Option (List (String × ℚ))
deriving DecidableEq, Repr

/-- Points lookup by driver code (`merge(..., on="driverCode")` key lookup). -/
def lookupPts (l : List (String × ℚ)) (d : String) : Option ℚ :=
  (l.find? (fun p => decide (p.1 = d))).map (fun p => p.2)

/-- The per-round points after the sprint merge:
`points = points_race + points_sprint.fillna(0)` on a left merge from the main
race; without a sprint the main points stand. -/
def mergeSprintPoints (main : List (String × ℚ)) (sprint : Option (List (String × ℚ))) :
    List (String × ℚ) :=
  match sprint with
  | none => main
  | some s => main.map (fun p => (p.1, p.2 + ((lookupPts s p.1).getD 0)))

/-- `results.pivot(index="driverCode", columns="round")` raises on a duplicate
(driver, round) pair; a duplicate arises when the main table repeats a code or
the left sprint merge duplicates a matched row. -/
def roundKeysOk (main : List (String × ℚ)) (sprint : Option (List (String × ℚ))) : Bool :=
  decide (main.map (fun p => p.1)).Nodup &&
    (match sprint with
     | none => true
     | some s => !(main.any (fun p => 2 ≤ (s.filter (fun q => decide (q.1 = p.1))).length)))

/-- The standings loop body over rounds `1..n` (`for rnd, race in
races["raceName"].items(): ...`): collects each round's merged per-driver
points; any round's fetch failure or pivot-breaking duplicate aborts the whole
standings computation (the exception propagates out of `get_driver_standings`). -/
def collectRounds (erg : Nat → Option ErgastRound) : Nat → Option (List (List (String × ℚ)))
  | 0 => some []
  | n + 1 =>
    match collectRounds erg n, erg (n + 1) with
    | some acc, some e =>
      if roundKeysOk e.main e.sprint then some (acc ++ [mergeSprintPoints e.main e.sprint])
      else none
    | _, _ => none

/-- One row of the standings table returned by `get_driver_standings`. -/
structure StandingsRow where
  driver : String
  points : ℚ
  champPosition : Nat
deriving DecidableEq, Repr

/-- `get_driver_standings` (GetSeasonData.py lines 8-49): processes schedule
rounds `1..min(scheduleLen, limit)` (the loop breaks at the round limit and
ends with the schedule); total points per driver are the `NaN`-skipping row
sum of the (driver × round) pivot; `ChampPosition` is the min-method
descending rank of the totals.  `pd.concat([])` on an empty round list raises
(`none`).  (The pivot sorts driver codes; index order only permutes tied rows
and every consumer is keyed by driver.) -/
def driverStandings (erg : Nat → Option ErgastRound) (scheduleLen limit : Nat) :
    Option (List StandingsRow) :=
  match collectRounds erg (min scheduleLen limit) with
  | none => none
  | some rounds =>
    if rounds.isEmpty then none
    else
      let drivers := dedupFirst (rounds.foldr (fun r acc => r.map (fun p => p.1) ++ acc) [])
      let totals := drivers.map (fun d => (d, (rounds.filterMap (fun r => lookupPts r d)).sum))
      some (sortLe (fun a b => decide (a.champPosition ≤ b.champPosition))
        (totals.map (fun p =>
          { driver := p.1
            points := p.2
            champPosition := 1 + (totals.filter (fun q => decide (p.2 < q.2))).length })))

/-- One round's raw inputs as seen by the body of the round loop in
`get_season_data_with_features`: each session is `none` when loading it raised
(the caught `⚠️ Could not load ...` branches), and `ergast` is this round's
standings source data. -/
structure RoundInput where
  fp1 : Option FPSession
  fp2 : Option FPSession
  fp3 : Option FPSession
  quali : Option QualiSession
  race : Option RaceSession
  ergast : Option ErgastRound
deriving DecidableEq, Repr

/-- The race table for a round, `pd.DataFrame(columns=["Driver"])` (no rows,
no race columns) when loading or `get_race_data` itself raised. -/
def raceTableOf (inp : RoundInput) : List RaceDataRow :=
  (inp.race.bind getRaceData).getD []

/-- The qualifying table for a round, empty placeholder on failure. -/
def qualiTableOf (inp : RoundInput) : List QualiRow :=
  (inp.quali.map getQualiData).getD []

/-- The successfully loaded practice tables of a round, remembered per session
kind (the source's suffixed column names keep the three sessions apart no
matter the order in which `fp_merged` is built). -/
structure FPMerged where
  t1 : Option (List FPRow)
  t2 : Option (List FPRow)
  t3 : Option (List FPRow)
deriving DecidableEq, Repr

/-- The loaded practice tables of a round. -/
def fpMergedOf (inp : RoundInput) : FPMerged :=
  { t1 := inp.fp1.map getFpData
    t2 := inp.fp2.map getFpData
    t3 := inp.fp3.map getFpData }

/-- Driver keys of `fp_merged` (successive outer merges: keys of the first
loaded table, then new keys of the next, ...). -/
def fpMergedDrivers (m : FPMerged) : List String :=
  dedupFirst (((m.t1.getD []) ++ (m.t2.getD []) ++ (m.t3.getD [])).map (fun r => r.driver))

/-- One row of the assembled `round_data`: the outer-merged race ∪ quali ∪
practice metrics for one driver plus the round number.  Fields of a session
the driver (or the whole round) is missing from are `none`. -/
structure RoundRow where
  driver : String
  finishingPosition : Option ℚ
  finishStatus : Option String
  dnfDummy : Option Nat
  raceTime : Option ℚ
  racePace : Option ℚ
  gapToFastestRacePace : Option ℚ
  positionQuali : Option ℚ
  qualiLap : Option ℚ
  gapToPole : Option ℚ
  gapFP1 : Option ℚ
  posFP1 : Option Nat
  paceFP1 : Option ℚ
  gapFP2 : Option ℚ
  posFP2 : Option Nat
  paceFP2 : Option ℚ
  gapFP3 : Option ℚ
  posFP3 : Option Nat
  paceFP3 : Option ℚ
  round : Nat
deriving DecidableEq, Repr

/-- Which session column groups exist in a round's DataFrame (`round_data`
carries a session's columns exactly when that session's table was merged in:
race columns when `get_race_data` succeeded, quali/practice columns when the
corresponding non-empty table was merged). -/
structure ColsPresent where
  race : Bool
  quali : Bool
  fp1 : Bool
  fp2 : Bool
  fp3 : Bool
deriving DecidableEq, Repr

/-- The assembled `round_data`: rows plus the present column groups. -/
structure RoundTable where
  rows : List RoundRow
  cols : ColsPresent
deriving DecidableEq, Repr

/-- The merged-keys list of the round assembly: first-occurrence union of the
race, quali, and combined-practice driver keys (outer joins keep the left
table's key order, then append new right keys). -/
def mergedDrivers (inp : RoundInput) : List String :=
  dedupFirst (((raceTableOf inp).map (fun r => r.driver)) ++
    ((qualiTableOf inp).map (fun r => r.driver)) ++ fpMergedDrivers (fpMergedOf inp))

/-- The outer-merged row of one driver: each session's fields come from that
session's row for the driver, `none` where the driver (or session) is
missing — never a zero default. -/
def mergedRowFor (inp : RoundInput) (rnd : Nat) (d : String) : RoundRow :=
  let rr := (raceTableOf inp).find? (fun r => decide (r.driver = d))
  let qr := (qualiTableOf inp).find? (fun r => decide (r.driver = d))
  let f1 := ((fpMergedOf inp).t1.getD []).find? (fun r => decide (r.driver = d))
  let f2 := ((fpMergedOf inp).t2.getD []).find? (fun r => decide (r.driver = d))
  let f3 := ((fpMergedOf inp).t3.getD []).find? (fun r => decide (r.driver = d))
  { driver := d
    finishingPosition := rr.bind (fun r => r.finishingPosition)
    finishStatus := rr.map (fun r => r.finishStatus)
    dnfDummy := rr.map (fun r => r.dnfDummy)
    raceTime := rr.bind (fun r => r.raceTime)
    racePace := rr.bind (fun r => r.racePace)
    gapToFastestRacePace := rr.bind (fun r => r.gapToFastestRacePace)
    positionQuali := qr.bind (fun r => r.positionQuali)
    qualiLap := qr.bind (fun r => r.qualiLap)
    gapToPole := qr.bind (fun r => r.gapToPole)
    gapFP1 := f1.map (fun r => r.gapToFastest)
    posFP1 := f1.map (fun r => r.position)
    paceFP1 := f1.bind (fun r => r.racePace)
    gapFP2 := f2.map (fun r => r.gapToFastest)
    posFP2 := f2.map (fun r => r.position)
    paceFP2 := f2.bind (fun r => r.racePace)
    gapFP3 := f3.map (fun r => r.gapToFastest)
    posFP3 := f3.map (fun r => r.position)
    paceFP3 := f3.bind (fun r => r.racePace)
    round := rnd }

/-- The round assembly of `get_season_data_with_features` (lines 197-227):
start from the race table, outer-merge the quali table unless empty, then the
combined practice table unless empty.  Skipping an empty table neither adds
rows nor keys, so the merged key list is uniformly the first-occurrence union
of the three key lists; but a skipped merge does drop the column group. -/
def assembleRound (inp : RoundInput) (rnd : Nat) : RoundTable :=
  let qualiT := qualiTableOf inp
  let m := fpMergedOf inp
  let fpDs := fpMergedDrivers m
  { rows := (mergedDrivers inp).map (mergedRowFor inp rnd)
    cols := { race := (inp.race.bind getRaceData).isSome
              quali := !qualiT.isEmpty
              fp1 := m.t1.isSome && !fpDs.isEmpty
              fp2 := m.t2.isSome && !fpDs.isEmpty
              fp3 := m.t3.isSome && !fpDs.isEmpty } }

/-- The hardcoded `mapTeams` driver→team lookup (lines 184-195). -/
def mapTeams : List (String × String) :=
  [("NOR", "McLaren"), ("PIA", "McLaren"),
   ("VER", "Red Bull"), ("TSU", "Red Bull"),
   ("HAM", "Ferrari"), ("LEC", "Ferrari"),
   ("RUS", "Mercedes"), ("ANT", "Mercedes"),
   ("ALB", "Williams"), ("SAI", "Williams"),
   ("STR", "Aston Martin"), ("ALO", "Aston Martin"),
   ("HAD", "Racing Bulls"), ("LAW", "Racing Bulls"),
   ("HUL", "Kick Sauber"), ("BOR", "Kick Sauber"),
   ("BEA", "Haas"), ("OCO", "Haas"),
   ("GAS", "Alpine"), ("COL", "Alpine")]

/-- `rolling_features["Driver"].map(mapTeams)`: absent drivers map to `NaN`. -/
def teamOf (d : String) : Option String :=
  (mapTeams.find? (fun p => decide (p.1 = d))).map (fun p => p.2)

/-- The `NaN`-skipping column mean of the rolling `groupby.agg`: `none` when a
driver has no observation of the metric in the whole history. -/
def aggMean (xs : List (Option ℚ)) : Option ℚ :=
  meanOpt (xs.filterMap id)

/-- One row of `rolling_features` after the team map and the standings merge:
rolling means over the history, team, and this round's standings (standings
fields `none` when `get_driver_standings` raised or the driver is absent). -/
structure FeatRow where
  avgGapToPole : Option ℚ
  avgFinishingPosition : Option ℚ
  avgQualiPosition : Option ℚ
  avgFP1Position : Option ℚ
  avgFP2Position : Option ℚ
  avgFP3Position : Option ℚ
  avgGapToFastestRacePace : Option ℚ
  dnfPercentage : Option ℚ
  avgFP1Gap : Option ℚ
  avgFP2Gap : Option ℚ
  avgFP3Gap : Option ℚ
  team : Option String
  points : Option ℚ
  champPosition : Option Nat
deriving DecidableEq, Repr

/-- The rolling feature row of one driver over the concatenated history
(lines 235-253).  Every aggregated metric is a `NaN`-skipping mean over the
driver's rows; note that `RaceTime` is not among the aggregated columns. -/
def rollingFor (rows : List RoundRow) (st : Option (List StandingsRow)) (d : String) : FeatRow :=
  let mine := rows.filter (fun r => decide (r.driver = d))
  let sRow := st.bind (fun l => l.find? (fun q => decide (q.driver = d)))
  { avgGapToPole := aggMean (mine.map (fun r => r.gapToPole))
    avgFinishingPosition := aggMean (mine.map (fun r => r.finishingPosition))
    avgQualiPosition := aggMean (mine.map (fun r => r.positionQuali))
    avgFP1Position := aggMean (mine.map (fun r => (r.posFP1).map (fun n => (n : ℚ))))
    avgFP2Position := aggMean (mine.map (fun r => (r.posFP2).map (fun n => (n : ℚ))))
    avgFP3Position := aggMean (mine.map (fun r => (r.posFP3).map (fun n => (n : ℚ))))
    avgGapToFastestRacePace := aggMean (mine.map (fun r => r.gapToFastestRacePace))
    dnfPercentage := aggMean (mine.map (fun r => (r.dnfDummy).map (fun n => (n : ℚ))))
    avgFP1Gap := aggMean (mine.map (fun r => r.gapFP1))
    avgFP2Gap := aggMean (mine.map (fun r => r.gapFP2))
    avgFP3Gap := aggMean (mine.map (fun r => r.gapFP3))
    team := teamOf d
    points := sRow.map (fun q => q.points)
    champPosition := sRow.map (fun q => q.champPosition) }

/-- One emitted row of the final season table: the round's assembled row
left-joined with the rolling/standings/team features (feature fields `none`
when the rolling placeholder was empty or the driver missing from it). -/
structure OutRow where
  row : RoundRow
  feat : Option FeatRow
deriving DecidableEq, Repr

/-- Union of the column groups over the concatenated history
(`pd.concat` keeps the union of the frames' columns). -/
def unionCols (ts : List RoundTable) : ColsPresent :=
  { race := ts.any (fun t => t.cols.race)
    quali := ts.any (fun t => t.cols.quali)
    fp1 := ts.any (fun t => t.cols.fp1)
    fp2 := ts.any (fun t => t.cols.fp2)
    fp3 := ts.any (fun t => t.cols.fp3) }

/-- The rolling `groupby.agg` names exactly the columns of the five session
groups (GapToPole/Position_Quali; FinishingPosition/GapToFastestRacePace/
DNF_Dummy; Position_FPi/GapToFastest_FPi): it raises `KeyError` unless every
group appeared in some concatenated round. -/
def aggColsOk (c : ColsPresent) : Bool :=
  c.race && c.quali && c.fp1 && c.fp2 && c.fp3

/-- The per-round emission (lines 229-258): with an all-empty history the
rolling placeholder is empty and the raw round rows are emitted
(`round_data.copy()`); otherwise the `groupby.agg` must find all its columns
in the history (else the uncaught `KeyError` aborts the whole pipeline), and
each round row is left-joined with its driver's feature row. -/
def emitRound (hist : List RoundTable) (cur : RoundTable)
    (st : Option (List StandingsRow)) : Except Unit (List OutRow) :=
  let allRows := hist.foldr (fun t acc => t.rows ++ acc) []
  if allRows.isEmpty then
    Except.ok (cur.rows.map (fun r => { row := r, feat := none }))
  else if !(aggColsOk (unionCols hist)) then Except.error ()
  else
    Except.ok (cur.rows.map (fun r =>
      { row := r
        feat := if allRows.any (fun x => decide (x.driver = r.driver)) then
            some (rollingFor allRows st r.driver)
          else none }))

/-- The sequential round loop of `get_season_data_with_features` over rounds
`1..n`: state is the history of assembled round tables (`cumulative_data`)
and the emitted blocks (`all_rounds`); `scheduleLen` is the length of the
Ergast race schedule read by every standings computation. -/
def runRounds (I : Nat → RoundInput) (scheduleLen : Nat) :
    Nat → Except Unit (List RoundTable × List (List OutRow))
  | 0 => Except.ok ([], [])
  | n + 1 =>
    match runRounds I scheduleLen n with
    | Except.error e => Except.error e
    | Except.ok (hist, blocks) =>
      let rd := assembleRound (I (n + 1)) (n + 1)
      let hist2 := hist ++ [rd]
      match emitRound hist2 rd
        (driverStandings (fun k => (I k).ergast) scheduleLen (n + 1)) with
      | Except.error e => Except.error e
      | Except.ok block => Except.ok (hist2, blocks ++ [block])

/-- `get_season_data_with_features` (lines 174-261): run the round loop for
rounds `1..limit` and concatenate the emitted blocks in round order
(`pd.concat(all_rounds)` raises on an empty list, i.e. `limit = 0`). -/
def getSeasonDataWithFeatures (I : Nat → RoundInput) (scheduleLen limit : Nat) :
    Except Unit (List OutRow) :=
  match runRounds I scheduleLen limit with
  | Except.error e => Except.error e
  | Except.ok (_, blocks) =>
    if blocks.isEmpty then Except.error ()
    else Except.ok (blocks.foldr (fun b acc => b ++ acc) [])

/-- Decidable equality for `Except`, used to evaluate the pipeline on the
concrete scenarios. -/
instance {ε α : Type} [DecidableEq ε] [DecidableEq α] : DecidableEq (Except ε α) := fun a b =>
  match a, b with
  | Except.ok x, Except.ok y =>
    if h : x = y then isTrue (by rw [h]) else isFalse (fun hh => h (Except.ok.inj hh))
  | Except.error x, Except.error y =>
    if h : x = y then isTrue (by rw [h]) else isFalse (fun hh => h (Except.error.inj hh))
  | Except.ok _, Except.error _ => isFalse (fun hh => Except.noConfusion hh)
  | Except.error _, Except.ok _ => isFalse (fun hh => Except.noConfusion hh)


/-- The per-driver points list of round `r` as `get_driver_standings` builds
it (empty when the round's fetch failed). -/
def roundPointsOf (erg : Nat → Option ErgastRound) (r : Nat) : List (String × ℚ) :=
  ((erg r).map (fun e => mergeSprintPoints e.main e.sprint)).getD []

/-! ## Concrete scenario data for the claims -/

/-- The three result rows of the spec's race-time reconstruction scenario:
leader elapsed 5400 s, driver BBB gap 20 s Finished, driver CCC "+1 Lap". -/
def scnWinner : RaceResultRow :=
  { driver := "LLL", position := some 1, status := "Finished", time := some 5400 }

/-- Driver B of the reconstruction scenario. -/
def scnRowB : RaceResultRow :=
  { driver := "BBB", position := some 2, status := "Finished", time := some 20 }

/-- Driver C of the reconstruction scenario (completed 55 of 58 laps, mean
quick-lap pace 92 s, recorded gap 95 s). -/
def scnRowC : RaceResultRow :=
  { driver := "CCC", position := some 16, status := "+1 Lap", time := some 95 }

/-- The race session of the reconstruction scenario: CCC has 55 quick laps of
92 s each; one other lap row carries lap number 58 (the session lap count). -/
def scnRace : RaceSession :=
  { laps := ((List.range 55).map (fun i =>
      { driver := "CCC", lapNumber := (i : ℚ) + 1, lapTime := some 92, isQuick := true })) ++
      [{ driver := "LLL", lapNumber := 58, lapTime := some 100, isQuick := false }]
    results := [scnWinner, scnRowB, scnRowC] }

/-- A result row whose raw status contains both "Finished" and "Lap": it
classifies to Finished, yet `compute_racetime` adds the lapped extension. -/
def cxRowB : RaceResultRow :=
  { driver := "BBB", position := some 2, status := "Finished +1 Lap", time := some 5 }

/-- Race session refuting the Finished branch of the reconstruction claim:
BBB completed 1 of 2 laps with mean quick pace 10 s, so an extra lap is
estimated although the status classifies to Finished. -/
def cxRace : RaceSession :=
  { laps := [{ driver := "BBB", lapNumber := 1, lapTime := some 10, isQuick := true },
             { driver := "AAA", lapNumber := 2, lapTime := some 11, isQuick := true }]
    results := [{ driver := "AAA", position := some 1, status := "Finished", time := some 100 },
                cxRowB] }

/-- Qualifying session refuting gap nonnegativity: AAA takes pole with Q3 =
90 s while BBB, eliminated earlier, holds a faster Q2 of 89 s, so BBB's
`GapToPole` is −1. -/
def cxQuali : QualiSession :=
  { results := [{ driver := "AAA", position := some 1, q1 := none, q2 := none, q3 := some 90 },
                { driver := "BBB", position := some 11, q1 := none, q2 := some 89, q3 := none }] }

/-- A minimal valid practice session (one quick lap by AAA). -/
def oneFp : FPSession :=
  { laps := [{ driver := "AAA", lapNumber := 1, lapTime := some 10, isQuick := true }] }

/-- A minimal valid qualifying session. -/
def oneQuali : QualiSession :=
  { results := [{ driver := "AAA", position := some 1, q1 := some 90, q2 := none, q3 := some 88 }] }

/-- A minimal valid race session with a classified winner. -/
def oneRace : RaceSession :=
  { laps := [{ driver := "AAA", lapNumber := 1, lapTime := some 10, isQuick := true }]
    results := [{ driver := "AAA", position := some 1, status := "Finished", time := some 100 }] }

/-- A minimal valid Ergast round. -/
def oneErgast : ErgastRound := { main := [("AAA", 25)], sprint := none }

/-- A round whose five sessions and standings data all load. -/
def inpFull : RoundInput :=
  { fp1 := some oneFp, fp2 := some oneFp, fp3 := some oneFp,
    quali := some oneQuali, race := some oneRace, ergast := some oneErgast }

/-- `inpFull` with the FP2 fetch failing. -/
def inpNoFP2 : RoundInput := { inpFull with fp2 := none }

/-- `inpFull` with the standings fetch failing. -/
def inpNoErgast : RoundInput := { inpFull with ergast := none }

/-- Season input whose round 1 is missing FP2 (every other session loads). -/
def c3cxInput : Nat → RoundInput := fun r => if r = 1 then inpNoFP2 else inpFull

/-- Season input whose round 2 is missing FP2 (round 1 loads fully). -/
def c3wInput : Nat → RoundInput := fun r => if r = 2 then inpNoFP2 else inpFull

/-- Season input equal to `c1bInput` on round 1 and differing later. -/
def c1aInput : Nat → RoundInput := fun r => if r ≤ 1 then inpFull else inpNoFP2

/-- Season input equal to `c1aInput` on round 1 and differing later. -/
def c1bInput : Nat → RoundInput := fun r => if r ≤ 1 then inpFull else inpNoErgast

/-- The standings-merge scenario: XAA scores 18 then 25, YBB 25 then 18, no
sprints. -/
def scnErg : Nat → Option ErgastRound := fun r =>
  if r = 1 then some { main := [("XAA", 18), ("YBB", 25)], sprint := none }
  else if r = 2 then some { main := [("XAA", 25), ("YBB", 18)], sprint := none }
  else none

/-- Practice session with fastest laps 10, 10, 10.5 (the rank-tie example). -/
def exFp : FPSession :=
  { laps := [{ driver := "AAA", lapNumber := 1, lapTime := some 10, isQuick := false },
             { driver := "BBB", lapNumber := 1, lapTime := some 10, isQuick := false },
             { driver := "CCC", lapNumber := 1, lapTime := some (21 / 2), isQuick := false }] }

/-- A lapped driver with a recorded elapsed time and zero quick laps. -/
def zqRowD : RaceResultRow :=
  { driver := "DDD", position := some 2, status := "+1 Lap", time := some 50 }

/-- Race session for the zero-quick-lap edge case. -/
def zqRace : RaceSession :=
  { laps := [{ driver := "DDD", lapNumber := 1, lapTime := some 100, isQuick := false },
             { driver := "EEE", lapNumber := 2, lapTime := some 90, isQuick := true }]
    results := [{ driver := "EEE", position := some 1, status := "Finished", time := some 200 },
                zqRowD] }

/-- A race results table with no classified-position-1 row. -/
def noWinRace : RaceSession :=
  { laps := []
    results := [{ driver := "FFF", position := some 2, status := "Finished", time := some 300 }] }

/-- Qualifying table with a driver (GGG) absent from every other session. -/
def twoQuali : QualiSession :=
  { results := [{ driver := "AAA", position := some 1, q1 := some 90, q2 := none, q3 := some 88 },
                { driver := "GGG", position := some 2, q1 := some 91, q2 := none, q3 := none }] }

/-- Round input whose qualifying contains a driver missing from the race. -/
def inpC8 : RoundInput := { inpFull with quali := some twoQuali }


/-! ## Helper lemmas on the list utilities -/

theorem listMin_le : ∀ {xs : List ℚ} {m : ℚ}, listMin xs = some m → ∀ x ∈ xs, m ≤ x := by
  intro xs
  induction xs with
  | nil => intro m hm; simp [listMin] at hm
  | cons a as ih =>
    intro m hm x hx
    rw [listMin] at hm
    cases h : listMin as with
    | none =>
      rw [h] at hm
      injection hm with hm
      subst hm
      have hasnil : as = [] := by
        cases as with
        | nil => rfl
        | cons b bs =>
          exfalso
          rw [listMin] at h
          cases h2 : listMin bs <;> rw [h2] at h <;> exact Option.noConfusion h
      subst hasnil
      have : x = a := by simpa using hx
      exact le_of_eq this.symm
    | some m2 =>
      rw [h] at hm
      injection hm with hm
      subst hm
      rcases List.mem_cons.1 hx with rfl | hx2
      · exact min_le_left _ _
      · exact le_trans (min_le_right _ _) (ih h x hx2)

theorem listMin_mem : ∀ {xs : List ℚ} {m : ℚ}, listMin xs = some m → m ∈ xs := by
  intro xs
  induction xs with
  | nil => intro m hm; simp [listMin] at hm
  | cons a as ih =>
    intro m hm
    rw [listMin] at hm
    cases h : listMin as with
    | none =>
      rw [h] at hm; injection hm with hm; subst hm; exact List.mem_cons_self a as
    | some m2 =>
      rw [h] at hm; injection hm with hm
      rcases min_cases a m2 with ⟨he, _⟩ | ⟨he, _⟩
      · rw [he] at hm; subst hm; exact List.mem_cons_self a as
      · rw [he] at hm; subst hm; exact List.mem_cons_of_mem a (ih h)

theorem listMin_isSome {xs : List ℚ} (h : xs ≠ []) : ∃ m, listMin xs = some m := by
  cases xs with
  | nil => exact absurd rfl h
  | cons a as =>
    rw [listMin]
    cases h2 : listMin as with
    | none => exact ⟨a, rfl⟩
    | some m2 => exact ⟨min a m2, rfl⟩

theorem mem_dedupFirst {a : String} : ∀ {l : List String}, a ∈ dedupFirst l ↔ a ∈ l := by
  intro l
  induction l with
  | nil => simp [dedupFirst]
  | cons x xs ih =>
    rw [dedupFirst]
    simp only [List.mem_cons, List.mem_filter, ih]
    constructor
    · rintro (h | ⟨h, _⟩)
      · exact Or.inl h
      · exact Or.inr h
    · rintro (h | h)
      · exact Or.inl h
      · by_cases hax : a = x
        · exact Or.inl hax
        · exact Or.inr ⟨h, by simpa using hax⟩

theorem dedupFirst_append_left : ∀ {a : List String}, a.Nodup → ∀ b : List String,
    ∃ c, dedupFirst (a ++ b) = a ++ c := by
  intro a
  induction a with
  | nil => exact fun _ b => ⟨dedupFirst b, rfl⟩
  | cons x xs ih =>
    intro hnd b
    obtain ⟨c, hc⟩ := ih (List.nodup_cons.1 hnd).2 b
    refine ⟨c.filter (fun y => decide (y ≠ x)), ?_⟩
    rw [List.cons_append, dedupFirst, hc, List.filter_append]
    have hx : xs.filter (fun y => decide (y ≠ x)) = xs := by
      apply List.filter_eq_self.2
      intro y hy
      simp only [decide_eq_true_eq]
      exact fun he => (List.nodup_cons.1 hnd).1 (he ▸ hy)
    rw [hx]
    rfl

theorem insertLe_perm {α : Type} (le : α → α → Bool) (x : α) :
    ∀ l : List α, (insertLe le x l).Perm (x :: l) := by
  intro l
  induction l with
  | nil => exact List.Perm.refl _
  | cons y ys ih =>
    rw [insertLe]
    by_cases h : le x y = true
    · rw [if_pos h]
    · rw [if_neg h]
      exact (List.Perm.cons y ih).trans (List.Perm.swap x y ys)

theorem sortLe_perm {α : Type} (le : α → α → Bool) :
    ∀ l : List α, (sortLe le l).Perm l := by
  intro l
  induction l with
  | nil => exact List.Perm.refl _
  | cons x xs ih =>
    rw [sortLe]
    exact (insertLe_perm le x (sortLe le xs)).trans (List.Perm.cons x ih)

theorem mem_sortLe {α : Type} {le : α → α → Bool} {l : List α} {a : α} :
    a ∈ sortLe le l ↔ a ∈ l :=
  (sortLe_perm le l).mem_iff

theorem simplifyStatus_lapped {s : String} (h : simplifyStatus s = "Lapped") :
    hasSub "Lap" s = true ∧ hasSub "Finished" s = false := by
  rw [simplifyStatus] at h
  by_cases hf : hasSub "Finished" s = true
  · rw [if_pos hf] at h; exact absurd h (by decide)
  · rw [if_neg hf] at h
    by_cases hl : hasSub "Lap" s = true
    · refine ⟨hl, ?_⟩
      simp only [Bool.not_eq_true] at hf
      exact hf
    · rw [if_neg hl] at h; exact absurd h (by decide)

/-! ## Structural lemmas on the round loop -/

theorem runRounds_succ (I : Nat → RoundInput) (S n : Nat) :
    runRounds I S (n + 1) =
      match runRounds I S n with
      | Except.error e => Except.error e
      | Except.ok (hist, blocks) =>
        match emitRound (hist ++ [assembleRound (I (n + 1)) (n + 1)])
          (assembleRound (I (n + 1)) (n + 1))
          (driverStandings (fun k => (I k).ergast) S (n + 1)) with
        | Except.error e => Except.error e
        | Except.ok block =>
          Except.ok (hist ++ [assembleRound (I (n + 1)) (n + 1)], blocks ++ [block]) := rfl

theorem runRounds_step_ok {I : Nat → RoundInput} {S n : Nat}
    {hist : List RoundTable} {blocks : List (List OutRow)} {blk : List OutRow}
    (hok : runRounds I S n = Except.ok (hist, blocks))
    (he : emitRound (hist ++ [assembleRound (I (n + 1)) (n + 1)])
      (assembleRound (I (n + 1)) (n + 1))
      (driverStandings (fun k => (I k).ergast) S (n + 1)) = Except.ok blk) :
    runRounds I S (n + 1) =
      Except.ok (hist ++ [assembleRound (I (n + 1)) (n + 1)], blocks ++ [blk]) := by
  rw [runRounds_succ, hok]
  dsimp only
  rw [he]

theorem runRounds_succ_inv {I : Nat → RoundInput} {S n : Nat}
    {h : List RoundTable} {bs : List (List OutRow)}
    (hr : runRounds I S (n + 1) = Except.ok (h, bs)) :
    ∃ hist blocks blk, runRounds I S n = Except.ok (hist, blocks) ∧
      emitRound (hist ++ [assembleRound (I (n + 1)) (n + 1)])
        (assembleRound (I (n + 1)) (n + 1))
        (driverStandings (fun k => (I k).ergast) S (n + 1)) = Except.ok blk ∧
      h = hist ++ [assembleRound (I (n + 1)) (n + 1)] ∧ bs = blocks ++ [blk] := by
  rw [runRounds_succ] at hr
  cases hrec : runRounds I S n with
  | error e => rw [hrec] at hr; simp at hr
  | ok p =>
    obtain ⟨hist, blocks⟩ := p
    rw [hrec] at hr
    dsimp only at hr
    cases hemit : emitRound (hist ++ [assembleRound (I (n + 1)) (n + 1)])
      (assembleRound (I (n + 1)) (n + 1))
      (driverStandings (fun k => (I k).ergast) S (n + 1)) with
    | error e => rw [hemit] at hr; simp at hr
    | ok blk =>
      rw [hemit] at hr
      simp only [Except.ok.injEq, Prod.mk.injEq] at hr
      exact ⟨hist, blocks, blk, rfl, hemit, hr.1.symm, hr.2.symm⟩

theorem runRounds_len {I : Nat → RoundInput} {S : Nat} :
    ∀ {N : Nat} {h : List RoundTable} {bs : List (List OutRow)},
      runRounds I S N = Except.ok (h, bs) → h.length = N ∧ bs.length = N := by
  intro N
  induction N with
  | zero =>
    intro h bs hr
    rw [runRounds] at hr
    simp only [Except.ok.injEq, Prod.mk.injEq] at hr
    rw [← hr.1, ← hr.2]
    exact ⟨rfl, rfl⟩
  | succ n ih =>
    intro h bs hr
    obtain ⟨hist, blocks, blk, hrec, _, rfl, rfl⟩ := runRounds_succ_inv hr
    obtain ⟨hl, bl⟩ := ih hrec
    constructor <;> simp [hl, bl]

theorem runRounds_prefix {I : Nat → RoundInput} {S : Nat} :
    ∀ L N : Nat, N ≤ L → ∀ {h : List RoundTable} {bs : List (List OutRow)},
      runRounds I S L = Except.ok (h, bs) →
      runRounds I S N = Except.ok (h.take N, bs.take N) := by
  intro L
  induction L with
  | zero =>
    intro N hN h bs hr
    have hN0 : N = 0 := by omega
    subst hN0
    rw [runRounds] at hr
    simp only [Except.ok.injEq, Prod.mk.injEq] at hr
    rw [← hr.1, ← hr.2]
    rfl
  | succ n ih =>
    intro N hN h bs hr
    obtain ⟨hist, blocks, blk, hrec, hemit, rfl, rfl⟩ := runRounds_succ_inv hr
    obtain ⟨hl, bl⟩ := runRounds_len hrec
    by_cases hEq : N = n + 1
    · subst hEq
      rw [List.take_of_length_le (by simp [hl]), List.take_of_length_le (by simp [bl])]
      exact runRounds_step_ok hrec hemit
    · have hNn : N ≤ n := by omega
      rw [List.take_append_of_le_length (by omega), List.take_append_of_le_length (by omega)]
      exact ih N hNn hrec

theorem collectRounds_congr {erg erg2 : Nat → Option ErgastRound} :
    ∀ n : Nat, (∀ k, 1 ≤ k → k ≤ n → erg k = erg2 k) →
      collectRounds erg n = collectRounds erg2 n := by
  intro n
  induction n with
  | zero => intro _; rfl
  | succ n ih =>
    intro h
    rw [collectRounds, collectRounds,
      ih (fun k hk1 hk2 => h k hk1 (Nat.le_succ_of_le hk2)),
      h (n + 1) (by omega) (le_refl _)]

theorem driverStandings_congr {erg erg2 : Nat → Option ErgastRound} {S S2 r : Nat}
    (hmin : min S r = min S2 r)
    (h : ∀ k, 1 ≤ k → k ≤ min S r → erg k = erg2 k) :
    driverStandings erg S r = driverStandings erg2 S2 r := by
  have hc : collectRounds erg (min S r) = collectRounds erg2 (min S2 r) := by
    rw [← hmin]
    exact collectRounds_congr (min S r) h
  rw [driverStandings, driverStandings, hc]

theorem runRounds_congr {I I2 : Nat → RoundInput} {S S2 : Nat} :
    ∀ N : Nat, (∀ r, 1 ≤ r → r ≤ N → I r = I2 r) → min S N = min S2 N →
      runRounds I S N = runRounds I2 S2 N := by
  intro N
  induction N with
  | zero => intro _ _; rfl
  | succ n ih =>
    intro hI hS
    have hrec := ih (fun r h1 h2 => hI r h1 (Nat.le_succ_of_le h2)) (by omega)
    have hinp : I (n + 1) = I2 (n + 1) := hI (n + 1) (by omega) (le_refl _)
    have hst : driverStandings (fun k => (I k).ergast) S (n + 1) =
        driverStandings (fun k => (I2 k).ergast) S2 (n + 1) := by
      apply driverStandings_congr hS
      intro k hk1 hk2
      rw [hI k hk1 (le_trans hk2 (min_le_right _ _))]
    rw [runRounds_succ, runRounds_succ, hrec, hinp, hst]

theorem emitRound_ok (hist : List RoundTable) (cur : RoundTable)
    (st : Option (List StandingsRow)) (h : aggColsOk (unionCols hist) = true) :
    ∃ b, emitRound hist cur st = Except.ok b := by
  rw [emitRound]
  split
  · exact ⟨_, rfl⟩
  · rw [h]
    exact ⟨_, rfl⟩

theorem emitRound_mem {hist : List RoundTable} {cur : RoundTable}
    {st : Option (List StandingsRow)} {b : List OutRow}
    (h : emitRound hist cur st = Except.ok b) :
    ∀ o ∈ b, ∃ r ∈ cur.rows, o.row = r := by
  rw [emitRound] at h
  split at h
  · simp only [Except.ok.injEq] at h
    intro o ho
    rw [← h] at ho
    obtain ⟨r, hr, hrow⟩ := List.mem_map.1 ho
    exact ⟨r, hr, by rw [← hrow]⟩
  · split at h
    · simp at h
    · simp only [Except.ok.injEq] at h
      intro o ho
      rw [← h] at ho
      obtain ⟨r, hr, hrow⟩ := List.mem_map.1 ho
      exact ⟨r, hr, by rw [← hrow]⟩

theorem aggColsOk_unionCols {ts : List RoundTable} {t : RoundTable}
    (ht : t ∈ ts) (h : aggColsOk t.cols = true) : aggColsOk (unionCols ts) = true := by
  simp only [aggColsOk, Bool.and_eq_true] at h
  simp only [aggColsOk, unionCols, Bool.and_eq_true, List.any_eq_true]
  exact ⟨⟨⟨⟨⟨t, ht, h.1.1.1.1⟩, ⟨t, ht, h.1.1.1.2⟩⟩, ⟨t, ht, h.1.1.2⟩⟩, ⟨t, ht, h.1.2⟩⟩,
    ⟨t, ht, h.2⟩⟩

theorem assembleRound_drivers (inp : RoundInput) (rnd : Nat) :
    (assembleRound inp rnd).rows.map (fun r => r.driver) = mergedDrivers inp := by
  simp only [assembleRound, List.map_map]
  have : ((fun r : RoundRow => r.driver) ∘ mergedRowFor inp rnd) = fun d => d := by
    funext d
    rfl
  rw [this, List.map_id']

theorem assembleRound_fp2_none {inp : RoundInput} {rnd : Nat} (h : inp.fp2 = none) :
    ∀ r ∈ (assembleRound inp rnd).rows,
      r.gapFP2 = none ∧ r.posFP2 = none ∧ r.paceFP2 = none := by
  intro r hr
  simp only [assembleRound] at hr
  obtain ⟨d, _, hrow⟩ := List.mem_map.1 hr
  rw [← hrow]
  simp [mergedRowFor, fpMergedOf, h]

theorem runRounds_ok_of_first {I : Nat → RoundInput} {S : Nat}
    (h1 : aggColsOk (assembleRound (I 1) 1).cols = true) :
    ∀ n : Nat, ∃ h bs, runRounds I S n = Except.ok (h, bs) ∧
      (1 ≤ n → ∃ rest, h = assembleRound (I 1) 1 :: rest) := by
  intro n
  induction n with
  | zero => exact ⟨[], [], rfl, fun hc => absurd hc (by omega)⟩
  | succ n ih =>
    obtain ⟨h, bs, hok, hfirst⟩ := ih
    have hfirst2 : ∃ rest2, h ++ [assembleRound (I (n + 1)) (n + 1)] =
        assembleRound (I 1) 1 :: rest2 := by
      cases n with
      | zero =>
        have h0 : h = [] := List.length_eq_zero.1 (runRounds_len hok).1
        subst h0
        exact ⟨[], rfl⟩
      | succ m =>
        obtain ⟨rest, hrest⟩ := hfirst (by omega)
        exact ⟨rest ++ [assembleRound (I (m + 2)) (m + 2)], by rw [hrest]; rfl⟩
    obtain ⟨rest2, hrest2⟩ := hfirst2
    have hmem : assembleRound (I 1) 1 ∈ h ++ [assembleRound (I (n + 1)) (n + 1)] := by
      rw [hrest2]
      exact List.mem_cons_self _ _
    obtain ⟨blk, hblk⟩ := emitRound_ok (h ++ [assembleRound (I (n + 1)) (n + 1)])
      (assembleRound (I (n + 1)) (n + 1))
      (driverStandings (fun k => (I k).ergast) S (n + 1))
      (aggColsOk_unionCols hmem h1)
    exact ⟨h ++ [assembleRound (I (n + 1)) (n + 1)], bs ++ [blk],
      runRounds_step_ok hok hblk, fun _ => ⟨rest2, hrest2⟩⟩

/-! ## Lemmas on the session extractors -/

theorem getRaceData_none {s : RaceSession}
    (h : ∀ r ∈ s.results, r.position ≠ some 1) : getRaceData s = none := by
  rw [getRaceData]
  rw [List.find?_eq_none.2 (fun r hr => by simpa using h r hr)]

theorem getRaceData_some {s : RaceSession} {w : RaceResultRow}
    (hw : s.results.find? (fun r => decide (r.position = some 1)) = some w) :
    w.position = some 1 ∧ w ∈ s.results ∧
      getRaceData s = some (sortLe (fun a b => optLe a.finishingPosition b.finishingPosition)
        (s.results.map (raceRowOf s w.time))) := by
  refine ⟨?_, List.mem_of_find?_eq_some hw, ?_⟩
  · simpa using List.find?_some hw
  · rw [getRaceData, hw]

theorem raceRowOf_mem {s : RaceSession} {w r : RaceResultRow}
    (hw : s.results.find? (fun x => decide (x.position = some 1)) = some w)
    (hr : r ∈ s.results) :
    ∃ t, getRaceData s = some t ∧ raceRowOf s w.time r ∈ t ∧
      t.length = s.results.length := by
  refine ⟨_, (getRaceData_some hw).2.2, ?_, ?_⟩
  · exact mem_sortLe.2 (List.mem_map_of_mem (raceRowOf s w.time) hr)
  · rw [(sortLe_perm _ _).length_eq, List.length_map]

theorem optAdd_none_right (x : Option ℚ) : optAdd x none = none := by
  cases x <;> rfl

theorem optMul_none_left (x : Option ℚ) : optMul none x = none := by
  cases x <;> rfl

theorem computeRacetime_noLap {laps : List Lap} {wt : Option ℚ} {r : RaceResultRow} {g : ℚ}
    (ht : r.time = some g) (hl : hasSub "Lap" r.status = false) :
    computeRacetime laps wt r = if r.position = some 1 then wt else optAdd wt (some g) := by
  rw [computeRacetime, ht]
  dsimp only
  rw [hl]
  rfl

theorem computeRacetime_lap {laps : List Lap} {wt : Option ℚ} {r : RaceResultRow} {g : ℚ}
    (ht : r.time = some g) (hl : hasSub "Lap" r.status = true) :
    computeRacetime laps wt r =
      optAdd (if r.position = some 1 then wt else optAdd wt (some g))
        (optMul (driverQuickMean laps r.driver)
          ((listMax (laps.map (fun l => l.lapNumber))).map
            (fun m => m - ((laps.filter (fun l => decide (l.driver = r.driver))).length : ℚ)))) := by
  rw [computeRacetime, ht]
  dsimp only
  rw [hl]
  rfl

theorem computeRacetime_lapped_noQuick {laps : List Lap} {wt : Option ℚ} {r : RaceResultRow}
    (ht : r.time.isSome = true) (hl : hasSub "Lap" r.status = true)
    (hq : driverQuickMean laps r.driver = none) :
    computeRacetime laps wt r = none := by
  obtain ⟨g, hg⟩ := Option.isSome_iff_exists.1 ht
  rw [computeRacetime_lap hg hl, hq, optMul_none_left, optAdd_none_right]

theorem getFpData_eq_of_min {s : FPSession} {m : ℚ}
    (hm : listMin ((fpFastList s).map (fun p => p.2)) = some m) :
    getFpData s = sortLe (fun a b => decide (a.gapToFastest ≤ b.gapToFastest))
      ((fpFastList s).map (fpRowOf s m)) := by
  rw [getFpData, hm]

theorem getFpData_mem {s : FPSession} {row : FPRow} (h : row ∈ getFpData s) :
    ∃ m p, listMin ((fpFastList s).map (fun q => q.2)) = some m ∧
      p ∈ fpFastList s ∧ row = fpRowOf s m p := by
  rw [getFpData] at h
  cases hm : listMin ((fpFastList s).map (fun q => q.2)) with
  | none => rw [hm] at h; simp at h
  | some m =>
    rw [hm] at h
    dsimp only at h
    obtain ⟨p, hp, hrow⟩ := List.mem_map.1 (mem_sortLe.1 h)
    exact ⟨m, p, rfl, hp, hrow.symm⟩

theorem meanOpt_some_ne_nil {xs : List ℚ} {x : ℚ} (h : meanOpt xs = some x) : xs ≠ [] := by
  intro he
  rw [he] at h
  simp [meanOpt] at h

/-- A driver with a defined mean quick-lap pace appears in the quick-lap
drivers, and that pace is among the race-pace column values. -/
theorem driverQuickMean_mem {laps : List Lap} {d : String} {p : ℚ}
    (h : driverQuickMean laps d = some p) :
    d ∈ quickDrivers laps ∧
      p ∈ (quickDrivers laps).filterMap (fun d2 => driverQuickMean laps d2) := by
  have hne := meanOpt_some_ne_nil h
  have hd : d ∈ quickDrivers laps := by
    rw [quickDrivers, mem_dedupFirst]
    rcases hx : ((quicklapsOf laps).filter (fun l => decide (l.driver = d))).filterMap
        (fun l => l.lapTime) with _ | ⟨t, ts⟩
    · exact absurd hx (by rw [driverQuickMean] at h; exact fun hc => hne hc)
    · have ht : t ∈ ((quicklapsOf laps).filter (fun l => decide (l.driver = d))).filterMap
          (fun l => l.lapTime) := by rw [hx]; exact List.mem_cons_self t ts
      obtain ⟨l, hl, _⟩ := List.mem_filterMap.1 ht
      obtain ⟨hlq, hld⟩ := List.mem_filter.1 hl
      exact List.mem_map.2 ⟨l, hlq, by simpa using hld⟩
  exact ⟨hd, List.mem_filterMap.2 ⟨d, hd, h⟩⟩

theorem optSub_none_left (x : Option ℚ) : optSub none x = none := by
  cases x <;> rfl

theorem optSub_none_right (x : Option ℚ) : optSub x none = none := by
  cases x <;> rfl

theorem gapToFastestRacePace_nonneg {laps : List Lap} {d : String} {g : ℚ}
    (h : optSub (driverQuickMean laps d) (fastestRacePace laps) = some g) : 0 ≤ g := by
  cases hp : driverQuickMean laps d with
  | none => rw [hp, optSub_none_left] at h; exact absurd h (by simp)
  | some p =>
    cases hm : fastestRacePace laps with
    | none => rw [hp, hm, optSub_none_right] at h; exact absurd h (by simp)
    | some m =>
      rw [hp, hm] at h
      rw [optSub] at h
      have hg : p - m = g := by simpa using h
      have hmem := (driverQuickMean_mem hp).2
      have hle : m ≤ p := listMin_le hm p hmem
      rw [← hg]
      linarith

theorem fastestRacePace_zero_row {s : RaceSession} {w : RaceResultRow} {m : ℚ}
    (hw : s.results.find? (fun x => decide (x.position = some 1)) = some w)
    (hm : fastestRacePace s.laps = some m)
    (hres : ∀ d ∈ quickDrivers s.laps, ∃ rr ∈ s.results, rr.driver = d) :
    ∃ t, getRaceData s = some t ∧ ∃ row ∈ t, row.gapToFastestRacePace = some 0 := by
  have hmem : m ∈ (quickDrivers s.laps).filterMap (fun d => driverQuickMean s.laps d) :=
    listMin_mem hm
  obtain ⟨d, hd, hdm⟩ := List.mem_filterMap.1 hmem
  obtain ⟨rr, hrr, hrd⟩ := hres d hd
  obtain ⟨t, ht, hmemt, _⟩ := raceRowOf_mem hw hrr
  refine ⟨t, ht, raceRowOf s w.time rr, hmemt, ?_⟩
  show optSub (driverQuickMean s.laps rr.driver) (fastestRacePace s.laps) = some 0
  rw [hrd, hdm, hm, optSub]
  simp

theorem getQualiData_mem {s : QualiSession} {r0 : QualiResultRow} (hr : r0 ∈ s.results) :
    { driver := r0.driver, positionQuali := r0.position, qualiLap := qualiLapOf r0,
      gapToPole := optSub (qualiLapOf r0) (poleTime s) : QualiRow } ∈ getQualiData s := by
  rw [getQualiData]
  exact mem_sortLe.2 (List.mem_map_of_mem _ hr)

theorem getQualiData_pole {s : QualiSession} {r0 : QualiResultRow} {p : ℚ}
    (hr : r0 ∈ s.results) (hq3 : r0.q3 = some p) (hp : poleTime s = some p) :
    ∃ row ∈ getQualiData s, row.driver = r0.driver ∧ row.gapToPole = some 0 := by
  refine ⟨_, getQualiData_mem hr, rfl, ?_⟩
  show optSub (qualiLapOf r0) (poleTime s) = some 0
  rw [qualiLapOf, hq3, hp]
  show optSub (some p) (some p) = some 0
  rw [optSub]
  simp

theorem getFpData_pos_eq {s : FPSession} {row : FPRow} (h : row ∈ getFpData s) :
    row.position = 1 + (((getFpData s).map (fun r => r.gapToFastest)).filter
      (fun g => decide (g < row.gapToFastest))).length := by
  obtain ⟨m, p, hm, hp, hrow⟩ := getFpData_mem h
  subst hrow
  have hperm : ((getFpData s).map (fun r => r.gapToFastest)).Perm
      ((fpFastList s).map (fun q => q.2 - m)) := by
    rw [getFpData_eq_of_min hm]
    refine ((sortLe_perm (fun a b => decide (a.gapToFastest ≤ b.gapToFastest))
      ((fpFastList s).map (fpRowOf s m))).map (fun r => r.gapToFastest)).trans ?_
    rw [List.map_map]
    exact List.Perm.refl _
  show 1 + (((fpFastList s).map (fun q => q.2 - m)).filter
      (fun g => decide (g < p.2 - m))).length =
    1 + (((getFpData s).map (fun r => r.gapToFastest)).filter
      (fun g => decide (g < p.2 - m))).length
  rw [((hperm.filter (fun g => decide (g < p.2 - m)))).length_eq]

theorem getFpData_gap_nonneg {s : FPSession} {row : FPRow} (h : row ∈ getFpData s) :
    0 ≤ row.gapToFastest := by
  obtain ⟨m, p, hm, hp, hrow⟩ := getFpData_mem h
  subst hrow
  show (0 : ℚ) ≤ p.2 - m
  have : m ≤ p.2 := listMin_le hm p.2 (List.mem_map.2 ⟨p, hp, rfl⟩)
  linarith

theorem getFpData_gap_zero {s : FPSession} (h : getFpData s ≠ []) :
    ∃ row ∈ getFpData s, row.gapToFastest = 0 := by
  cases hm : listMin ((fpFastList s).map (fun q => q.2)) with
  | none =>
    exfalso
    apply h
    rw [getFpData, hm]
  | some m =>
    obtain ⟨p, hp, hpm⟩ := List.mem_map.1 (listMin_mem hm)
    refine ⟨fpRowOf s m p, ?_, ?_⟩
    · rw [getFpData_eq_of_min hm]
      exact mem_sortLe.2 (List.mem_map_of_mem _ hp)
    · show p.2 - m = 0
      rw [hpm]
      ring

theorem getFpData_ties {s : FPSession} {r1 r2 : FPRow}
    (h1 : r1 ∈ getFpData s) (h2 : r2 ∈ getFpData s)
    (hg : r1.gapToFastest = r2.gapToFastest) : r1.position = r2.position := by
  obtain ⟨m, p, hm, hp, hrow⟩ := getFpData_mem h1
  obtain ⟨m2, q, hm2, hq, hrow2⟩ := getFpData_mem h2
  have hmm : m = m2 := Option.some.inj (hm.symm.trans hm2)
  subst hmm
  subst hrow
  subst hrow2
  have hgap : p.2 - m = q.2 - m := hg
  show 1 + (((fpFastList s).map (fun x => x.2 - m)).filter
      (fun g => decide (g < p.2 - m))).length =
    1 + (((fpFastList s).map (fun x => x.2 - m)).filter
      (fun g => decide (g < q.2 - m))).length
  rw [hgap]

/-! ## Lemmas on the standings calculator -/

theorem lookupPts_nonneg {l : List (String × ℚ)} {d : String} {v : ℚ}
    (hl : ∀ q ∈ l, 0 ≤ q.2) (hv : lookupPts l d = some v) : 0 ≤ v := by
  rw [lookupPts] at hv
  cases hf : l.find? (fun p => decide (p.1 = d)) with
  | none => rw [hf] at hv; simp at hv
  | some q =>
    rw [hf] at hv
    simp only [Option.map_some'] at hv
    exact (Option.some.inj hv) ▸ hl q (List.mem_of_find?_eq_some hf)

theorem find?_map_key (f : String × ℚ → ℚ) :
    ∀ (l : List (String × ℚ)) (d : String),
      (l.map (fun p => (p.1, f p))).find? (fun q => decide (q.1 = d)) =
        (l.find? (fun q => decide (q.1 = d))).map (fun p => (p.1, f p)) := by
  intro l d
  induction l with
  | nil => rfl
  | cons p ps ih =>
    rw [List.map_cons]
    by_cases hpd : p.1 = d
    · rw [@List.find?_cons_of_pos _ (fun q => decide (q.1 = d)) (p.1, f p)
          (ps.map (fun x => (x.1, f x))) (by simp [hpd]),
        @List.find?_cons_of_pos _ (fun q => decide (q.1 = d)) p ps (by simp [hpd])]
      rfl
    · rw [@List.find?_cons_of_neg _ (fun q => decide (q.1 = d)) (p.1, f p)
          (ps.map (fun x => (x.1, f x))) (by simp [hpd]),
        @List.find?_cons_of_neg _ (fun q => decide (q.1 = d)) p ps (by simp [hpd]), ih]

theorem lookupPts_map_add (s main : List (String × ℚ)) (d : String) :
    lookupPts (main.map (fun p => (p.1, p.2 + ((lookupPts s p.1).getD 0)))) d =
      (lookupPts main d).map (fun v => v + ((lookupPts s d).getD 0)) := by
  show ((main.map (fun p => (p.1, p.2 + ((lookupPts s p.1).getD 0)))).find?
      (fun q => decide (q.1 = d))).map (fun q => q.2) =
    ((main.find? (fun q => decide (q.1 = d))).map (fun q => q.2)).map
      (fun v => v + ((lookupPts s d).getD 0))
  rw [find?_map_key (fun p => p.2 + ((lookupPts s p.1).getD 0)) main d]
  cases hf : main.find? (fun q => decide (q.1 = d)) with
  | none => rfl
  | some q =>
    have hq : q.1 = d := by simpa using List.find?_some hf
    simp [hq]

theorem mergeSprintPoints_lookup (main : List (String × ℚ))
    (sprint : Option (List (String × ℚ))) (d : String) :
    lookupPts (mergeSprintPoints main sprint) d =
      (lookupPts main d).map (fun v => v + ((sprint.bind (fun sl => lookupPts sl d)).getD 0)) := by
  cases sprint with
  | none =>
    rw [mergeSprintPoints]
    cases lookupPts main d with
    | none => rfl
    | some v => simp
  | some sl =>
    rw [mergeSprintPoints]
    exact lookupPts_map_add sl main d

theorem mergeSprintPoints_nonneg {main : List (String × ℚ)}
    {sprint : Option (List (String × ℚ))} {d : String} {v : ℚ}
    (hmain : ∀ q ∈ main, 0 ≤ q.2)
    (hsprint : ∀ sl, sprint = some sl → ∀ q ∈ sl, 0 ≤ q.2)
    (hv : lookupPts (mergeSprintPoints main sprint) d = some v) : 0 ≤ v := by
  rw [mergeSprintPoints_lookup] at hv
  cases hm : lookupPts main d with
  | none => rw [hm] at hv; simp at hv
  | some v0 =>
    rw [hm] at hv
    simp only [Option.map_some'] at hv
    have h0 : 0 ≤ v0 := lookupPts_nonneg hmain hm
    have h1 : 0 ≤ (sprint.bind (fun sl => lookupPts sl d)).getD 0 := by
      rcases hsp : sprint with _ | sl
      · simp
      · cases hs : lookupPts sl d with
        | none => simp [Option.bind, hs]
        | some w =>
          have hw : 0 ≤ w := lookupPts_nonneg (hsprint sl hsp) hs
          simpa [Option.bind, hs] using hw
    rw [← Option.some.inj hv]
    linarith

theorem collectRounds_spec {erg : Nat → Option ErgastRound} :
    ∀ {n : Nat} {rounds : List (List (String × ℚ))}, collectRounds erg n = some rounds →
      rounds.length = n ∧ ∀ i, i < n →
        ∃ e, erg (i + 1) = some e ∧
          rounds[i]? = some (mergeSprintPoints e.main e.sprint) := by
  intro n
  induction n with
  | zero =>
    intro rounds h
    rw [collectRounds] at h
    rw [← Option.some.inj h]
    exact ⟨rfl, fun i hi => absurd hi (by omega)⟩
  | succ n ih =>
    intro rounds h
    rw [collectRounds] at h
    cases hacc : collectRounds erg n with
    | none => rw [hacc] at h; simp at h
    | some acc =>
      rw [hacc] at h
      cases he : erg (n + 1) with
      | none => rw [he] at h; simp at h
      | some e =>
        rw [he] at h
        dsimp only at h
        by_cases hk : roundKeysOk e.main e.sprint = true
        · rw [if_pos hk] at h
          obtain ⟨hlen, hidx⟩ := ih hacc
          rw [← Option.some.inj h]
          refine ⟨by simp [hlen], ?_⟩
          intro i hi
          by_cases hin : i < n
          · obtain ⟨e2, he2, hr2⟩ := hidx i hin
            exact ⟨e2, he2, by rw [List.getElem?_append_left (by omega)]; exact hr2⟩
          · have hieq : i = n := by omega
            subst hieq
            refine ⟨e, he, ?_⟩
            rw [List.getElem?_append_right (by omega), hlen]
            simp
        · rw [if_neg hk] at h
          simp at h

theorem driverStandings_spec {erg : Nat → Option ErgastRound} {S N : Nat}
    {st : List StandingsRow} (hst : driverStandings erg S N = some st) :
    ∃ rounds totals, collectRounds erg (min S N) = some rounds ∧ rounds ≠ [] ∧
      totals = (dedupFirst (rounds.foldr (fun r acc => r.map (fun p => p.1) ++ acc) [])).map
        (fun d => (d, (rounds.filterMap (fun r => lookupPts r d)).sum)) ∧
      ∀ row ∈ st, ∃ p ∈ totals,
        row = { driver := p.1, points := p.2,
                champPosition := 1 + (totals.filter (fun q => decide (p.2 < q.2))).length } := by
  rw [driverStandings] at hst
  cases hc : collectRounds erg (min S N) with
  | none => rw [hc] at hst; simp at hst
  | some rounds =>
    rw [hc] at hst
    dsimp only at hst
    by_cases hne : rounds.isEmpty = true
    · rw [if_pos hne] at hst; simp at hst
    · rw [if_neg hne] at hst
      refine ⟨rounds, _, rfl, by simpa [List.isEmpty_iff] using hne, rfl, ?_⟩
      intro row hrow
      rw [← Option.some.inj hst] at hrow
      obtain ⟨p, hp, hrow2⟩ := List.mem_map.1 (mem_sortLe.1 hrow)
      exact ⟨p, hp, hrow2.symm⟩


theorem filterMap_lookup_sum (d : String) :
    ∀ rounds : List (List (String × ℚ)),
      (rounds.filterMap (fun r => lookupPts r d)).sum =
        (rounds.map (fun r => (lookupPts r d).getD 0)).sum := by
  intro rounds
  induction rounds with
  | nil => rfl
  | cons r rs ih =>
    rw [List.filterMap_cons, List.map_cons, List.sum_cons]
    cases hl : lookupPts r d with
    | none => simpa [hl] using ih
    | some v => simpa [hl] using congrArg (fun x => v + x) ih

/-! ## Lemmas on the round assembly -/

theorem find?_rdriver_none {t : List RaceDataRow} {d : String}
    (h : ¬ d ∈ t.map (fun r => r.driver)) :
    t.find? (fun r => decide (r.driver = d)) = none := by
  apply List.find?_eq_none.2
  intro x hx
  simp only [decide_eq_true_eq]
  exact fun he => h (List.mem_map.2 ⟨x, hx, he⟩)

theorem find?_qdriver_none {t : List QualiRow} {d : String}
    (h : ¬ d ∈ t.map (fun r => r.driver)) :
    t.find? (fun r => decide (r.driver = d)) = none := by
  apply List.find?_eq_none.2
  intro x hx
  simp only [decide_eq_true_eq]
  exact fun he => h (List.mem_map.2 ⟨x, hx, he⟩)

theorem find?_fdriver_none {t : List FPRow} {d : String}
    (h : ¬ d ∈ t.map (fun r => r.driver)) :
    t.find? (fun r => decide (r.driver = d)) = none := by
  apply List.find?_eq_none.2
  intro x hx
  simp only [decide_eq_true_eq]
  exact fun he => h (List.mem_map.2 ⟨x, hx, he⟩)

theorem assembleRound_mem_iff (inp : RoundInput) (rnd : Nat) (d : String) :
    d ∈ (assembleRound inp rnd).rows.map (fun r => r.driver) ↔
      (d ∈ (raceTableOf inp).map (fun r => r.driver) ∨
       d ∈ (qualiTableOf inp).map (fun r => r.driver) ∨
       d ∈ fpMergedDrivers (fpMergedOf inp)) := by
  rw [assembleRound_drivers, mergedDrivers, mem_dedupFirst]
  simp [List.mem_append, or_assoc]

theorem assembleRound_row_eq {inp : RoundInput} {rnd : Nat} {row : RoundRow}
    (h : row ∈ (assembleRound inp rnd).rows) : row = mergedRowFor inp rnd row.driver := by
  simp only [assembleRound] at h
  obtain ⟨d, _, hrow⟩ := List.mem_map.1 h
  rw [← hrow]
  rfl

theorem mergedRowFor_race_none {inp : RoundInput} {rnd : Nat} {d : String}
    (h : ¬ d ∈ (raceTableOf inp).map (fun r => r.driver)) :
    (mergedRowFor inp rnd d).finishingPosition = none ∧
    (mergedRowFor inp rnd d).finishStatus = none ∧
    (mergedRowFor inp rnd d).dnfDummy = none ∧
    (mergedRowFor inp rnd d).raceTime = none ∧
    (mergedRowFor inp rnd d).racePace = none ∧
    (mergedRowFor inp rnd d).gapToFastestRacePace = none := by
  have hf := find?_rdriver_none h
  simp [mergedRowFor, hf]

theorem mergedRowFor_quali_none {inp : RoundInput} {rnd : Nat} {d : String}
    (h : ¬ d ∈ (qualiTableOf inp).map (fun r => r.driver)) :
    (mergedRowFor inp rnd d).positionQuali = none ∧
    (mergedRowFor inp rnd d).qualiLap = none ∧
    (mergedRowFor inp rnd d).gapToPole = none := by
  have hf := find?_qdriver_none h
  simp [mergedRowFor, hf]

theorem mergedRowFor_fp_none {inp : RoundInput} {rnd : Nat} {d : String}
    (h : ¬ d ∈ fpMergedDrivers (fpMergedOf inp)) :
    (mergedRowFor inp rnd d).gapFP1 = none ∧ (mergedRowFor inp rnd d).posFP1 = none ∧
    (mergedRowFor inp rnd d).paceFP1 = none ∧
    (mergedRowFor inp rnd d).gapFP2 = none ∧ (mergedRowFor inp rnd d).posFP2 = none ∧
    (mergedRowFor inp rnd d).paceFP2 = none ∧
    (mergedRowFor inp rnd d).gapFP3 = none ∧ (mergedRowFor inp rnd d).posFP3 = none ∧
    (mergedRowFor inp rnd d).paceFP3 = none := by
  have h1 : ¬ d ∈ ((fpMergedOf inp).t1.getD []).map (fun r => r.driver) := by
    intro hc
    apply h
    rw [fpMergedDrivers, mem_dedupFirst, List.map_append, List.map_append]
    exact List.mem_append.2 (Or.inl (List.mem_append.2 (Or.inl hc)))
  have h2 : ¬ d ∈ ((fpMergedOf inp).t2.getD []).map (fun r => r.driver) := by
    intro hc
    apply h
    rw [fpMergedDrivers, mem_dedupFirst, List.map_append, List.map_append]
    exact List.mem_append.2 (Or.inl (List.mem_append.2 (Or.inr hc)))
  have h3 : ¬ d ∈ ((fpMergedOf inp).t3.getD []).map (fun r => r.driver) := by
    intro hc
    apply h
    rw [fpMergedDrivers, mem_dedupFirst, List.map_append, List.map_append]
    exact List.mem_append.2 (Or.inr hc)
  simp [mergedRowFor, find?_fdriver_none h1, find?_fdriver_none h2, find?_fdriver_none h3]

theorem assembleRound_race_first {inp : RoundInput} {rnd : Nat}
    (hnd : ((raceTableOf inp).map (fun r => r.driver)).Nodup) :
    ((assembleRound inp rnd).rows.map (fun r => r.driver)).take (raceTableOf inp).length =
      (raceTableOf inp).map (fun r => r.driver) := by
  rw [assembleRound_drivers, mergedDrivers, List.append_assoc]
  obtain ⟨c, hc⟩ := dedupFirst_append_left hnd
    (((qualiTableOf inp).map (fun r => r.driver)) ++ fpMergedDrivers (fpMergedOf inp))
  rw [hc]
  have hl : (raceTableOf inp).length =
      ((raceTableOf inp).map (fun r => r.driver)).length :=
    (List.length_map _ _).symm
  rw [hl, List.take_left]

/-! ## Remaining small helpers -/

theorem dedupFirst_ne_nil {l : List String} (h : l ≠ []) : dedupFirst l ≠ [] := by
  cases l with
  | nil => exact absurd rfl h
  | cons x xs => rw [dedupFirst]; exact List.cons_ne_nil _ _

theorem fpMergedDrivers_ne_nil {m : FPMerged} (h : m.t1.getD [] ≠ []) :
    fpMergedDrivers m ≠ [] := by
  rw [fpMergedDrivers]
  apply dedupFirst_ne_nil
  intro hc
  rw [List.map_eq_nil_iff, List.append_eq_nil, List.append_eq_nil] at hc
  exact h hc.1.1

theorem assembleRound_cols_eval (inp : RoundInput) (rnd : Nat) :
    (assembleRound inp rnd).cols = ColsPresent.mk
      (inp.race.bind getRaceData).isSome
      (!(qualiTableOf inp).isEmpty)
      ((inp.fp1.map getFpData).isSome && !(fpMergedDrivers (fpMergedOf inp)).isEmpty)
      ((inp.fp2.map getFpData).isSome && !(fpMergedDrivers (fpMergedOf inp)).isEmpty)
      ((inp.fp3.map getFpData).isSome && !(fpMergedDrivers (fpMergedOf inp)).isEmpty) := rfl

/-! ## The claims -/

/-- C1 (causality, invariant I1): within the round limit, the sequential
aggregator's state and emitted blocks for rounds `1..N` are a function only of
the per-round inputs and of the schedule prefix up to round `N`: two season
inputs agreeing on every round `≤ N` (and on `min scheduleLen N`) produce
identical `N`-round runs, and the `N`-round run is exactly the first `N`
history tables and emitted blocks of any longer run.  Hence adding, replaying,
or changing any round greater than `N` leaves round `N`'s emitted rows
unchanged. -/
theorem c1_causality_runRounds (I I2 : Nat → RoundInput) (S S2 N : Nat)
    (hI : ∀ r, 1 ≤ r → r ≤ N → I r = I2 r) (hS : min S N = min S2 N) :
    runRounds I S N = runRounds I2 S2 N ∧
      ∀ L h bs, N ≤ L → runRounds I S L = Except.ok (h, bs) →
        runRounds I S N = Except.ok (h.take N, bs.take N) :=
  ⟨runRounds_congr N hI hS, fun L _ _ hNL hr => runRounds_prefix L N hNL hr⟩

/-- Witness for C1: two concrete season inputs that agree on round 1 and
differ from round 2 on produce the same one-round run. -/
theorem c1_causality_runRounds_witness :
    (∀ r, 1 ≤ r → r ≤ 1 → c1aInput r = c1bInput r) ∧ min 3 1 = min 5 1 ∧
      (runRounds c1aInput 3 1 = runRounds c1bInput 5 1 ∧
        ∀ L h bs, 1 ≤ L → runRounds c1aInput 3 L = Except.ok (h, bs) →
          runRounds c1aInput 3 1 = Except.ok (h.take 1, bs.take 1)) := by
  have h1 : ∀ r, 1 ≤ r → r ≤ 1 → c1aInput r = c1bInput r := by
    intro r hr1 hr2
    have hr : r = 1 := by omega
    subst hr
    rfl
  exact ⟨h1, rfl, c1_causality_runRounds c1aInput c1bInput 3 5 1 h1 rfl⟩

/-- C7: a driver whose status classifies to Lapped, with a recorded elapsed
time but zero quick laps, gets an absent (`none`) reconstructed race time and
an absent race pace; the race table is still produced with one row per result
row (the round is not aborted), and the driver's other fields are intact.
(`RaceTime` is not among the columns the rolling aggregation reads, and
`aggMean` skips absent values, so no downstream average is corrupted.) -/
theorem c7_zero_quicklap_absent (s : RaceSession) (w r : RaceResultRow)
    (hw : s.results.find? (fun x => decide (x.position = some 1)) = some w)
    (hr : r ∈ s.results)
    (hst : simplifyStatus r.status = "Lapped")
    (ht : r.time.isSome = true)
    (hq : (quicklapsOf s.laps).filter (fun l => decide (l.driver = r.driver)) = []) :
    ∃ t, getRaceData s = some t ∧ t.length = s.results.length ∧
      raceRowOf s w.time r ∈ t ∧
      (raceRowOf s w.time r).raceTime = none ∧
      (raceRowOf s w.time r).racePace = none ∧
      (raceRowOf s w.time r).driver = r.driver ∧
      (raceRowOf s w.time r).finishingPosition = r.position ∧
      (raceRowOf s w.time r).dnfDummy = 0 := by
  have hqm : driverQuickMean s.laps r.driver = none := by
    rw [driverQuickMean, hq]
    rfl
  obtain ⟨t, h1, h2, h3⟩ := raceRowOf_mem hw hr
  have hlap := (simplifyStatus_lapped hst).1
  refine ⟨t, h1, h3, h2, ?_, hqm, rfl, rfl, ?_⟩
  · show computeRacetime s.laps w.time r = none
    exact computeRacetime_lapped_noQuick ht hlap hqm
  · show (if r.time.isNone then 1 else 0) = 0
    cases hrt : r.time with
    | none => rw [hrt] at ht; simp at ht
    | some v => simp

/-- Witness for C7 on the concrete zero-quick-lap session. -/
theorem c7_zero_quicklap_absent_witness :
    ((quicklapsOf zqRace.laps).filter (fun l => decide (l.driver = zqRowD.driver)) = [] ∧
      simplifyStatus zqRowD.status = "Lapped") ∧
    (∃ t, getRaceData zqRace = some t ∧ t.length = 2) ∧
    (raceRowOf zqRace (some 200) zqRowD).raceTime = none := by
  obtain ⟨t, h1, h2, _, h4, _⟩ :=
    c7_zero_quicklap_absent zqRace
      { driver := "EEE", position := some 1, status := "Finished", time := some 200 } zqRowD
      (by decide) (by decide) (by decide) (by decide) (by decide)
  exact ⟨⟨by decide, by decide⟩, ⟨t, h1, h2⟩, h4⟩

/-- C8 (round assembly merge policy): the assembled round table is the outer
join on the driver key, race table first, then quali, then the combined
practice table: a driver appears in the round exactly when it appears in some
input table; a driver absent from a given input has every one of that input's
fields absent (`none`, never a zero default); and with distinct race keys the
merged key order starts with the race table's keys. -/
theorem c8_outer_join_merge (inp : RoundInput) (rnd : Nat) :
    (∀ d, d ∈ (assembleRound inp rnd).rows.map (fun r => r.driver) ↔
      (d ∈ (raceTableOf inp).map (fun r => r.driver) ∨
       d ∈ (qualiTableOf inp).map (fun r => r.driver) ∨
       d ∈ fpMergedDrivers (fpMergedOf inp))) ∧
    (∀ row ∈ (assembleRound inp rnd).rows,
      (¬ row.driver ∈ (raceTableOf inp).map (fun r => r.driver) →
        row.finishingPosition = none ∧ row.finishStatus = none ∧ row.dnfDummy = none ∧
        row.raceTime = none ∧ row.racePace = none ∧ row.gapToFastestRacePace = none) ∧
      (¬ row.driver ∈ (qualiTableOf inp).map (fun r => r.driver) →
        row.positionQuali = none ∧ row.qualiLap = none ∧ row.gapToPole = none) ∧
      (¬ row.driver ∈ fpMergedDrivers (fpMergedOf inp) →
        row.gapFP1 = none ∧ row.posFP1 = none ∧ row.paceFP1 = none ∧
        row.gapFP2 = none ∧ row.posFP2 = none ∧ row.paceFP2 = none ∧
        row.gapFP3 = none ∧ row.posFP3 = none ∧ row.paceFP3 = none)) ∧
    (((raceTableOf inp).map (fun r => r.driver)).Nodup →
      ((assembleRound inp rnd).rows.map (fun r => r.driver)).take (raceTableOf inp).length =
        (raceTableOf inp).map (fun r => r.driver)) := by
  refine ⟨assembleRound_mem_iff inp rnd, ?_, fun hnd => assembleRound_race_first hnd⟩
  intro row hrow
  have heq := assembleRound_row_eq hrow
  refine ⟨fun hm => ?_, fun hm => ?_, fun hm => ?_⟩
  · rw [heq]
    exact mergedRowFor_race_none hm
  · rw [heq]
    exact mergedRowFor_quali_none hm
  · rw [heq]
    exact mergedRowFor_fp_none hm

/-- Witness for C8 on a round whose qualifying has a driver (GGG) absent from
the race: GGG appears in the merged round with all race fields absent. -/
theorem c8_outer_join_merge_witness :
    ("GGG" ∈ (assembleRound inpC8 1).rows.map (fun r => r.driver)) ∧
    (∀ row ∈ (assembleRound inpC8 1).rows,
      ¬ row.driver ∈ (raceTableOf inpC8).map (fun r => r.driver) →
        row.finishingPosition = none ∧ row.finishStatus = none ∧ row.dnfDummy = none ∧
        row.raceTime = none ∧ row.racePace = none ∧ row.gapToFastestRacePace = none) ∧
    ((assembleRound inpC8 1).rows.map (fun r => r.driver)).take 1 = ["AAA"] := by
  obtain ⟨h1, h2, h3⟩ := c8_outer_join_merge inpC8 1
  refine ⟨(h1 "GGG").2 (Or.inr (Or.inl (by decide))), fun row hrow hm => (h2 row hrow).1 hm, ?_⟩
  have := h3 (by decide)
  simpa using this

/-- C9 (determinism/idempotence): the season table is a pure function of the
per-round inputs, the schedule length, and the round limit; two runs on equal
frozen inputs return equal output. -/
theorem c9_pipeline_deterministic (I I2 : Nat → RoundInput) (S S2 L L2 : Nat)
    (hI : I = I2) (hS : S = S2) (hL : L = L2) :
    getSeasonDataWithFeatures I S L = getSeasonDataWithFeatures I2 S2 L2 := by
  subst hI
  subst hS
  subst hL
  rfl

/-- Witness for C9 at a concrete input. -/
theorem c9_pipeline_deterministic_witness :
    getSeasonDataWithFeatures c1aInput 3 1 = getSeasonDataWithFeatures c1aInput 3 1 :=
  c9_pipeline_deterministic c1aInput c1aInput 3 3 1 1 rfl rfl rfl

/-- C10 (classified-winner precondition): `get_race_data` reads the winner
time as the first results row with classified position 1.  With no such row
the lookup fails and no table is returned; when such a row exists the failure
is unreachable, and the table is built with that row's recorded time as the
leader time of every reconstruction. -/
theorem c10_winner_lookup (s : RaceSession) :
    ((∀ r ∈ s.results, r.position ≠ some 1) → getRaceData s = none) ∧
    (∀ w, s.results.find? (fun r => decide (r.position = some 1)) = some w →
      w.position = some 1 ∧ w ∈ s.results ∧
      getRaceData s = some (sortLe (fun a b => optLe a.finishingPosition b.finishingPosition)
        (s.results.map (raceRowOf s w.time)))) :=
  ⟨getRaceData_none, fun _ hw => getRaceData_some hw⟩

/-- Witness for C10: a winnerless table makes `get_race_data` fail; a table
with a winner succeeds using the winner row's time. -/
theorem c10_winner_lookup_witness :
    getRaceData noWinRace = none ∧
    (∃ w, oneRace.results.find? (fun r => decide (r.position = some 1)) = some w ∧
      w.position = some 1 ∧ (getRaceData oneRace).isSome = true) := by
  refine ⟨(c10_winner_lookup noWinRace).1 (by decide), ?_⟩
  obtain ⟨h1, _, h3⟩ := (c10_winner_lookup oneRace).2
    { driver := "AAA", position := some 1, status := "Finished", time := some 100 } (by decide)
  exact ⟨_, by decide, h1, by rw [h3]; rfl⟩

set_option maxRecDepth 100000 in
unseal Rat.add Rat.mul Rat.inv Rat.sub in
/-- C2 counterexample: on a recorded status containing both "Finished" and
"Lap", the status classifies to Finished, yet `compute_racetime` — which tests
only `"Lap" in status`, never the classifier — adds the missing-lap extension:
with leader time 100, recorded gap 5, and one missing lap at mean quick pace
10, the reconstructed time is 115, not leader + gap = 105 as the claim
requires for every Finished-classified driver. -/
theorem c2_finished_lap_overlap_cx :
    simplifyStatus cxRowB.status = "Finished" ∧
    (getRaceData cxRace).isSome = true ∧
    raceRowOf cxRace (some 100) cxRowB ∈ (getRaceData cxRace).getD [] ∧
    (raceRowOf cxRace (some 100) cxRowB).raceTime = some 115 ∧
    optAdd (some 100) cxRowB.time = some 105 ∧ (115 : ℚ) ≠ 105 := by
  refine ⟨by decide, by decide, by decide, by decide, by decide, by decide⟩

/-- C2 (amended): for every driver with a recorded elapsed time, the race
table holds that driver's row, and its reconstructed time is: if the raw
status does not contain "Lap" (in particular for an unambiguous Finished
status), the winner row's time plus the recorded gap — exactly the winner
row's time when the driver's classified position is 1; and whenever the raw
status contains "Lap" (in particular whenever it classifies to Lapped), that
base plus (maximum lap number in the lap table minus the driver's lap count)
times the driver's mean quick-lap pace.  The branch is decided by the raw
status containing "Lap", not by the classifier, which is what the
counterexample exhibits. -/
theorem c2_racetime_reconstruction_amended (s : RaceSession) (w r : RaceResultRow) (g : ℚ)
    (hw : s.results.find? (fun x => decide (x.position = some 1)) = some w)
    (hr : r ∈ s.results) (ht : r.time = some g) :
    ∃ t, getRaceData s = some t ∧ raceRowOf s w.time r ∈ t ∧
      (raceRowOf s w.time r).driver = r.driver ∧
      (hasSub "Lap" r.status = false →
        (raceRowOf s w.time r).raceTime =
          (if r.position = some 1 then w.time else optAdd w.time (some g))) ∧
      (hasSub "Lap" r.status = true →
        (raceRowOf s w.time r).raceTime =
          optAdd (if r.position = some 1 then w.time else optAdd w.time (some g))
            (optMul (driverQuickMean s.laps r.driver)
              ((listMax (s.laps.map (fun l => l.lapNumber))).map
                (fun m => m -
                  ((s.laps.filter (fun l => decide (l.driver = r.driver))).length : ℚ))))) := by
  obtain ⟨t, h1, h2, _⟩ := raceRowOf_mem hw hr
  refine ⟨t, h1, h2, rfl, ?_, ?_⟩
  · intro hl
    show computeRacetime s.laps w.time r = _
    exact computeRacetime_noLap ht hl
  · intro hl
    show computeRacetime s.laps w.time r = _
    exact computeRacetime_lap ht hl

set_option maxRecDepth 400000 in
unseal Rat.add Rat.mul Rat.inv Rat.sub in
/-- Witness for C2 on the spec's reconstruction scenario: Finished driver BBB
(gap 20, leader 5400) reconstructs to 5420; "+1 Lap" driver CCC (55 of 58
laps, mean quick pace 92, gap 95) reconstructs to 5771. -/
theorem c2_racetime_reconstruction_amended_witness :
    (scnRace.results.find? (fun x => decide (x.position = some 1)) = some scnWinner ∧
      scnRowB ∈ scnRace.results ∧ scnRowB.time = some 20 ∧
      scnRowC ∈ scnRace.results ∧ scnRowC.time = some 95) ∧
    (∃ t, getRaceData scnRace = some t ∧ raceRowOf scnRace scnWinner.time scnRowB ∈ t ∧
      raceRowOf scnRace scnWinner.time scnRowC ∈ t) ∧
    (raceRowOf scnRace scnWinner.time scnRowB).raceTime = some 5420 ∧
    (raceRowOf scnRace scnWinner.time scnRowC).raceTime = some 5771 := by
  obtain ⟨t, h1, h2, _, _, _⟩ := c2_racetime_reconstruction_amended scnRace scnWinner scnRowB 20
    (by decide) (by decide) (by decide)
  obtain ⟨t2, h1c, h2c, _, _, _⟩ := c2_racetime_reconstruction_amended scnRace scnWinner scnRowC 95
    (by decide) (by decide) (by decide)
  have ht2 : t2 = t := Option.some.inj (h1c.symm.trans h1)
  exact ⟨⟨by decide, by decide, by decide, by decide, by decide⟩,
    ⟨t, h1, h2, ht2 ▸ h2c⟩, by decide, by decide⟩

set_option maxRecDepth 100000 in
unseal Rat.add Rat.mul Rat.inv Rat.sub in
/-- C4 counterexample: in qualifying, `GapToPole` is measured against the
minimum recorded Q3 time, but an early-eliminated driver keeps a Q2/Q1
representative lap, which can beat the pole time: with AAA's Q3 = 90 (pole)
and BBB's Q2 = 89, BBB's gap is −1 < 0, refuting "gap_to_best ≥ 0 for every
driver with a defined gap" and "0 for the driver achieving the minimum
comparable time" (BBB holds the minimum lap yet has gap −1, AAA has gap 0). -/
theorem c4_negative_quali_gap_cx :
    (getQualiData cxQuali).map (fun r => (r.driver, r.gapToPole)) =
      [("AAA", some 0), ("BBB", some (-1))] ∧
    ((-1 : ℚ) < 0) ∧
    qualiLapOf { driver := "BBB", position := some 11, q1 := none, q2 := some 89, q3 := none } =
      some 89 ∧
    poleTime cxQuali = some 90 := by
  refine ⟨by decide, by decide, by decide, by decide⟩

/-- C4 (amended, invariant I2): gap-to-best is nonnegative, and attained as 0,
in every practice table and in the race-pace column; in qualifying the gap is
relative to the pole (minimum Q3) time: the pole-achieving driver's gap is
exactly 0, but a driver eliminated before Q3 whose representative lap beats
the pole time receives a negative gap (see the counterexample). -/
theorem c4_gap_semantics_amended :
    (∀ s : FPSession, ∀ row ∈ getFpData s, 0 ≤ row.gapToFastest) ∧
    (∀ s : FPSession, getFpData s ≠ [] → ∃ row ∈ getFpData s, row.gapToFastest = 0) ∧
    (∀ (s : RaceSession) (t : List RaceDataRow), getRaceData s = some t →
      ∀ row ∈ t, ∀ g, row.gapToFastestRacePace = some g → 0 ≤ g) ∧
    (∀ (s : RaceSession) (w : RaceResultRow) (m : ℚ),
      s.results.find? (fun x => decide (x.position = some 1)) = some w →
      fastestRacePace s.laps = some m →
      (∀ d ∈ quickDrivers s.laps, ∃ rr ∈ s.results, rr.driver = d) →
      ∃ t, getRaceData s = some t ∧ ∃ row ∈ t, row.gapToFastestRacePace = some 0) ∧
    (∀ (s : QualiSession) (r0 : QualiResultRow) (p : ℚ), r0 ∈ s.results →
      r0.q3 = some p → poleTime s = some p →
      ∃ row ∈ getQualiData s, row.driver = r0.driver ∧ row.gapToPole = some 0) := by
  refine ⟨fun s row h => getFpData_gap_nonneg h,
    fun s h => getFpData_gap_zero h, ?_,
    fun s w m hw hm hres => fastestRacePace_zero_row hw hm hres,
    fun s r0 p hr hq3 hp => getQualiData_pole hr hq3 hp⟩
  intro s t hgt row hrow g hg
  cases hw : s.results.find? (fun x => decide (x.position = some 1)) with
  | none => rw [getRaceData, hw] at hgt; exact absurd hgt (by simp)
  | some w =>
    rw [getRaceData, hw] at hgt
    simp only [Option.some.injEq] at hgt
    rw [← hgt] at hrow
    obtain ⟨r, _, hrr⟩ := List.mem_map.1 (mem_sortLe.1 hrow)
    rw [← hrr] at hg
    exact gapToFastestRacePace_nonneg hg

set_option maxRecDepth 200000 in
unseal Rat.add Rat.mul Rat.inv Rat.sub in
/-- Witness for C4 on concrete sessions: a zero-gap practice row exists and
every exhibited gap is nonnegative; the race-pace argmin driver's row has gap
exactly 0; the pole driver's qualifying gap is 0. -/
theorem c4_gap_semantics_amended_witness :
    (getFpData exFp ≠ [] ∧ fastestRacePace oneRace.laps = some 10 ∧
      poleTime oneQuali = some 88) ∧
    (∃ row ∈ getFpData exFp, row.gapToFastest = 0 ∧ 0 ≤ row.gapToFastest) ∧
    (∃ t, getRaceData oneRace = some t ∧ ∃ row ∈ t, row.gapToFastestRacePace = some 0) ∧
    (∃ row ∈ getQualiData oneQuali, row.driver = "AAA" ∧ row.gapToPole = some 0) := by
  obtain ⟨ha, hb, hc, hd, he⟩ := c4_gap_semantics_amended
  obtain ⟨row, hrow, hzero⟩ := hb exFp (by decide)
  have hres : ∀ d ∈ quickDrivers oneRace.laps, ∃ rr ∈ oneRace.results, rr.driver = d := by
    intro d hd
    have hda : d = "AAA" := by
      have : d ∈ ["AAA"] := by
        have he2 : quickDrivers oneRace.laps = ["AAA"] := by decide
        rw [← he2]
        exact hd
      simpa using this
    subst hda
    exact ⟨{ driver := "AAA", position := some 1, status := "Finished", time := some 100 },
      by decide, rfl⟩
  refine ⟨⟨by decide, by decide, by decide⟩, ⟨row, hrow, hzero, ha exFp row hrow⟩, ?_, ?_⟩
  · exact hd oneRace
      { driver := "AAA", position := some 1, status := "Finished", time := some 100 } 10
      (by decide) (by decide) hres
  · exact he oneQuali
      { driver := "AAA", position := some 1, q1 := some 90, q2 := none, q3 := some 88 } 88
      (by decide) (by decide) (by decide)

set_option maxRecDepth 100000 in
unseal Rat.add Rat.mul Rat.inv Rat.sub in
/-- C5 (points additivity and standings, invariant I3): a driver's merged
round points are the main-race points plus the sprint points, 0 when there is
no sprint or the driver has no sprint row, with no double counting (the lookup
is a single map over the main rows); nonnegative whenever the source points
are; cumulative points through round `N` are the round-by-round sum over
rounds `1..min(scheduleLen, N)` of the merged round points (0 for a round the
driver is absent from); and on the 2-round scenario — XAA scoring 18 then 25,
YBB 25 then 18 — both total 43 and both receive championship position 1. -/
theorem c5_points_additivity_standings :
    (∀ (main : List (String × ℚ)) (sprint : Option (List (String × ℚ))) (d : String),
      lookupPts (mergeSprintPoints main sprint) d =
        (lookupPts main d).map
          (fun v => v + ((sprint.bind (fun sl => lookupPts sl d)).getD 0))) ∧
    (∀ (main : List (String × ℚ)) (sprint : Option (List (String × ℚ))) (d : String) (v : ℚ),
      (∀ q ∈ main, 0 ≤ q.2) → (∀ sl, sprint = some sl → ∀ q ∈ sl, 0 ≤ q.2) →
      lookupPts (mergeSprintPoints main sprint) d = some v → 0 ≤ v) ∧
    (∀ (erg : Nat → Option ErgastRound) (S N : Nat) (st : List StandingsRow),
      driverStandings erg S N = some st → ∀ row ∈ st,
        ∃ rounds, collectRounds erg (min S N) = some rounds ∧
          rounds.length = min S N ∧
          (∀ i, i < min S N → ∃ e, erg (i + 1) = some e ∧
            rounds[i]? = some (mergeSprintPoints e.main e.sprint)) ∧
          row.points = (rounds.map (fun rd => (lookupPts rd row.driver).getD 0)).sum) ∧
    driverStandings scnErg 2 2 =
      some [{ driver := "XAA", points := 43, champPosition := 1 },
            { driver := "YBB", points := 43, champPosition := 1 }] := by
  refine ⟨mergeSprintPoints_lookup,
    fun main sprint d v h1 h2 h3 => mergeSprintPoints_nonneg h1 h2 h3, ?_, by decide⟩
  intro erg S N st hst row hrow
  obtain ⟨rounds, totals, hc, _, htot, hrows⟩ := driverStandings_spec hst
  obtain ⟨hlen, hidx⟩ := collectRounds_spec hc
  refine ⟨rounds, hc, hlen, hidx, ?_⟩
  obtain ⟨p, hp, hpr⟩ := hrows row hrow
  rw [htot] at hp
  obtain ⟨d0, _, hpd⟩ := List.mem_map.1 hp
  have hdriver : row.driver = d0 := by rw [hpr, ← hpd]
  have hpoints : row.points = (rounds.filterMap (fun rd => lookupPts rd d0)).sum := by
    rw [hpr, ← hpd]
  rw [hpoints, hdriver, filterMap_lookup_sum]

set_option maxRecDepth 100000 in
unseal Rat.add Rat.mul Rat.inv Rat.sub in
/-- Witness for C5: a concrete main+sprint round (XAA 18 main + 7 sprint,
YBB 25 main, no sprint row) has merged points 25 and 25, both nonnegative;
and a standings row of the scenario sums its per-round points. -/
theorem c5_points_additivity_standings_witness :
    lookupPts (mergeSprintPoints [("XAA", 18), ("YBB", 25)] (some [("XAA", 7)])) "XAA" =
      (some 18).map (fun v => v + (((some [("XAA", 7)]).bind
        (fun sl => lookupPts sl "XAA")).getD 0)) ∧
    (0 : ℚ) ≤ 25 ∧
    (∃ rounds, collectRounds scnErg (min 2 2) = some rounds ∧ rounds.length = min 2 2 ∧
      (∀ i, i < min 2 2 → ∃ e, scnErg (i + 1) = some e ∧
        rounds[i]? = some (mergeSprintPoints e.main e.sprint)) ∧
      (43 : ℚ) = (rounds.map (fun rd => (lookupPts rd "XAA").getD 0)).sum) := by
  obtain ⟨ha, hb, hc, hd⟩ := c5_points_additivity_standings
  have h1 := ha [("XAA", 18), ("YBB", 25)] (some [("XAA", 7)]) "XAA"
  have h3 := hc scnErg 2 2
    [{ driver := "XAA", points := 43, champPosition := 1 },
     { driver := "YBB", points := 43, champPosition := 1 }] hd
    { driver := "XAA", points := 43, champPosition := 1 } (by decide)
  obtain ⟨rounds, hr1, hr2, hr3, hr4⟩ := h3
  exact ⟨by rw [h1]; decide, by decide, ⟨rounds, hr1, hr2, hr3, hr4⟩⟩

set_option maxRecDepth 100000 in
unseal Rat.add Rat.mul Rat.inv Rat.sub in
/-- C6 (rank ties, invariant I4): in the practice ranking, drivers with equal
gaps receive equal positions, and every position equals 1 plus the number of
strictly smaller gaps in the table — the min-method rank, which makes the next
distinct value's rank skip by the tie-group size; championship positions
behave the same way on total points (descending); and on fastest laps
[10, 10, 10.5] the emitted positions are [1, 1, 3]. -/
theorem c6_rank_ties_min_method :
    (∀ s : FPSession, ∀ r1 ∈ getFpData s, ∀ r2 ∈ getFpData s,
      r1.gapToFastest = r2.gapToFastest → r1.position = r2.position) ∧
    (∀ s : FPSession, ∀ row ∈ getFpData s,
      row.position = 1 + (((getFpData s).map (fun r => r.gapToFastest)).filter
        (fun g => decide (g < row.gapToFastest))).length) ∧
    (∀ (erg : Nat → Option ErgastRound) (S N : Nat) (st : List StandingsRow),
      driverStandings erg S N = some st → ∀ r1 ∈ st, ∀ r2 ∈ st,
        r1.points = r2.points → r1.champPosition = r2.champPosition) ∧
    (getFpData exFp).map (fun r => (r.driver, r.position)) =
      [("AAA", 1), ("BBB", 1), ("CCC", 3)] := by
  refine ⟨fun s r1 h1 r2 h2 hg => getFpData_ties h1 h2 hg,
    fun s row h => getFpData_pos_eq h, ?_, by decide⟩
  intro erg S N st hst r1 h1 r2 h2 hpts
  obtain ⟨rounds, totals, _, _, _, hrows⟩ := driverStandings_spec hst
  obtain ⟨p1, _, hp1⟩ := hrows r1 h1
  obtain ⟨p2, _, hp2⟩ := hrows r2 h2
  have hpp : p1.2 = p2.2 := by
    have e1 : r1.points = p1.2 := by rw [hp1]
    have e2 : r2.points = p2.2 := by rw [hp2]
    rw [← e1, ← e2, hpts]
  have c1 : r1.champPosition =
      1 + (totals.filter (fun q => decide (p1.2 < q.2))).length := by rw [hp1]
  have c2 : r2.champPosition =
      1 + (totals.filter (fun q => decide (p2.2 < q.2))).length := by rw [hp2]
  rw [c1, c2, hpp]

set_option maxRecDepth 100000 in
unseal Rat.add Rat.mul Rat.inv Rat.sub in
/-- Witness for C6: the two tied rows of the [10, 10, 10.5] session receive
equal positions via the tie rule, and the rank-count identity holds on a
concrete row. -/
theorem c6_rank_ties_min_method_witness :
    ({ driver := "AAA", gapToFastest := 0, position := 1, racePace := none : FPRow }
        ∈ getFpData exFp ∧
      { driver := "BBB", gapToFastest := 0, position := 1, racePace := none : FPRow }
        ∈ getFpData exFp ∧
      { driver := "CCC", gapToFastest := 1 / 2, position := 3, racePace := none : FPRow }
        ∈ getFpData exFp) ∧
    (1 : Nat) = 1 ∧
    (3 : Nat) = 1 + (((getFpData exFp).map (fun r => r.gapToFastest)).filter
      (fun g => decide (g < (1 : ℚ) / 2))).length := by
  obtain ⟨ha, hb, _, _⟩ := c6_rank_ties_min_method
  have hmA : { driver := "AAA", gapToFastest := 0, position := 1, racePace := none : FPRow }
      ∈ getFpData exFp := by decide
  have hmB : { driver := "BBB", gapToFastest := 0, position := 1, racePace := none : FPRow }
      ∈ getFpData exFp := by decide
  have hmC : { driver := "CCC", gapToFastest := 1 / 2, position := 3, racePace := none : FPRow }
      ∈ getFpData exFp := by decide
  have htie := ha exFp _ hmA _ hmB (by decide)
  have hcount := hb exFp _ hmC
  exact ⟨⟨hmA, hmB, hmC⟩, htie, hcount⟩

set_option maxRecDepth 200000 in
unseal Rat.add Rat.mul Rat.inv Rat.sub in
/-- C3 counterexample: when the missing practice session is in round 1 — so
its columns never appear in the concatenated history — the rolling
`groupby.agg` names a non-existent column (`Position_FP2`), the resulting
`KeyError` is not caught, and the whole pipeline aborts, although every other
session of the round loaded; the claim's "the pipeline completes all
subsequent rounds without aborting" fails for that round. -/
theorem c3_round1_missing_fp2_cx :
    (c3cxInput 1).fp2 = none ∧
    (c3cxInput 1).fp1.isSome = true ∧ (c3cxInput 1).fp3.isSome = true ∧
    (c3cxInput 1).quali.isSome = true ∧ (c3cxInput 1).race.isSome = true ∧
    runRounds c3cxInput 1 1 = Except.error () := by
  refine ⟨by decide, by decide, by decide, by decide, by decide, by decide⟩

/-- C3 (amended): for a round `N ≥ 2` whose FP2 data is unavailable, provided
every other session of rounds `1..L` loads with data (so round 1, loading all
five sessions, puts every aggregated column into the history), the pipeline
completes all `L` rounds; round `N`'s emitted rows carry absent FP2 metrics,
and round `N`'s table has the Race, Quali, FP1 and FP3 column groups but no
FP2 columns.  For `N = 1` the pipeline instead aborts (see the
counterexample). -/
theorem c3_missing_session_amended (I : Nat → RoundInput) (S L N : Nat)
    (hN2 : 2 ≤ N) (hNL : N ≤ L)
    (hfp2N : (I N).fp2 = none)
    (hfp1 : ∀ r, 1 ≤ r → r ≤ L → ∃ f, (I r).fp1 = some f ∧ getFpData f ≠ [])
    (hfp2 : ∀ r, 1 ≤ r → r ≤ L → r ≠ N → (I r).fp2.isSome = true)
    (hfp3 : ∀ r, 1 ≤ r → r ≤ L → (I r).fp3.isSome = true)
    (hq : ∀ r, 1 ≤ r → r ≤ L → ∃ q, (I r).quali = some q ∧ getQualiData q ≠ [])
    (hrc : ∀ r, 1 ≤ r → r ≤ L → ∃ rs t, (I r).race = some rs ∧ getRaceData rs = some t) :
    ∃ histL blocksL histN blocksN blkN,
      runRounds I S L = Except.ok (histL, blocksL) ∧ blocksL.length = L ∧
      runRounds I S N = Except.ok (histN, blocksN) ∧
      histN = histL.take N ∧ blocksN = blocksL.take N ∧
      blocksN.getLast? = some blkN ∧
      (∀ o ∈ blkN, o.row.gapFP2 = none ∧ o.row.posFP2 = none ∧ o.row.paceFP2 = none) ∧
      (assembleRound (I N) N).cols = ColsPresent.mk true true true false true := by
  have hrace_col : ∀ r, 1 ≤ r → r ≤ L → ((I r).race.bind getRaceData).isSome = true := by
    intro r h1 h2
    obtain ⟨rs, t, hrs, ht⟩ := hrc r h1 h2
    rw [hrs]
    show (getRaceData rs).isSome = true
    rw [ht]
    rfl
  have hquali_col : ∀ r, 1 ≤ r → r ≤ L → (!(qualiTableOf (I r)).isEmpty) = true := by
    intro r h1 h2
    obtain ⟨q, hqe, hqne⟩ := hq r h1 h2
    rw [qualiTableOf, hqe]
    simp only [Option.map_some', Option.getD_some]
    cases hgl : getQualiData q with
    | nil => exact absurd hgl hqne
    | cons a as => rfl
  have hfp1_some : ∀ r, 1 ≤ r → r ≤ L → ((I r).fp1.map getFpData).isSome = true := by
    intro r h1 h2
    obtain ⟨f, hf, _⟩ := hfp1 r h1 h2
    rw [hf]
    rfl
  have hfp3_some : ∀ r, 1 ≤ r → r ≤ L → ((I r).fp3.map getFpData).isSome = true := by
    intro r h1 h2
    have := hfp3 r h1 h2
    cases hf3 : (I r).fp3 with
    | none => rw [hf3] at this; simp at this
    | some f => rfl
  have hfpds : ∀ r, 1 ≤ r → r ≤ L →
      (!(fpMergedDrivers (fpMergedOf (I r))).isEmpty) = true := by
    intro r h1 h2
    obtain ⟨f, hf, hfne⟩ := hfp1 r h1 h2
    have hne : fpMergedDrivers (fpMergedOf (I r)) ≠ [] := by
      apply fpMergedDrivers_ne_nil
      show ((I r).fp1.map getFpData).getD [] ≠ []
      rw [hf]
      simpa using hfne
    cases hds : fpMergedDrivers (fpMergedOf (I r)) with
    | nil => exact absurd hds hne
    | cons a as => rfl
  have hcols1 : aggColsOk (assembleRound (I 1) 1).cols = true := by
    have h1L : 1 ≤ L := by omega
    have hfp2_some : ((I 1).fp2.map getFpData).isSome = true := by
      have := hfp2 1 (le_refl 1) h1L (by omega)
      cases hf2 : (I 1).fp2 with
      | none => rw [hf2] at this; simp at this
      | some f => rfl
    rw [assembleRound_cols_eval, aggColsOk]
    rw [hrace_col 1 (le_refl 1) h1L, hquali_col 1 (le_refl 1) h1L,
      hfp1_some 1 (le_refl 1) h1L, hfp2_some, hfp3_some 1 (le_refl 1) h1L,
      hfpds 1 (le_refl 1) h1L]
    rfl
  obtain ⟨histL, blocksL, hokL, _⟩ := runRounds_ok_of_first hcols1 L
  obtain ⟨hhl, hbl⟩ := runRounds_len hokL
  have hokN := runRounds_prefix L N hNL hokL
  have hcolsN : (assembleRound (I N) N).cols = ColsPresent.mk true true true false true := by
    have h1N : 1 ≤ N := by omega
    have hfp2_none : ((I N).fp2.map getFpData).isSome = false := by
      rw [hfp2N]
      rfl
    rw [assembleRound_cols_eval]
    rw [hrace_col N h1N hNL, hquali_col N h1N hNL, hfp1_some N h1N hNL, hfp2_none,
      hfp3_some N h1N hNL, hfpds N h1N hNL]
    rfl
  obtain ⟨n, rfl⟩ : ∃ n, N = n + 1 := ⟨N - 1, by omega⟩
  obtain ⟨hist0, blocks0, blk, hrec0, hemit, hh0, hb0⟩ := runRounds_succ_inv hokN
  refine ⟨histL, blocksL, histL.take (n + 1), blocksL.take (n + 1), blk, hokL, hbl,
    hokN, rfl, rfl, ?_, ?_, hcolsN⟩
  · rw [hb0]
    exact List.getLast?_concat _
  · intro o ho
    obtain ⟨rr, hrr, horow⟩ := emitRound_mem hemit o ho
    have hfields := assembleRound_fp2_none hfp2N rr hrr
    rw [horow]
    exact hfields

set_option maxRecDepth 400000 in
unseal Rat.add Rat.mul Rat.inv Rat.sub in
/-- Witness for C3 at a two-round season whose round 2 is missing FP2 while
round 1 loads fully: the run completes both rounds and round 2's table has no
FP2 column group. -/
theorem c3_missing_session_amended_witness :
    (c3wInput 2).fp2 = none ∧
    (∃ histL blocksL, runRounds c3wInput 2 2 = Except.ok (histL, blocksL) ∧
      blocksL.length = 2) ∧
    (assembleRound (c3wInput 2) 2).cols = ColsPresent.mk true true true false true := by
  have hfp1 : ∀ r, 1 ≤ r → r ≤ 2 → ∃ f, (c3wInput r).fp1 = some f ∧ getFpData f ≠ [] := by
    intro r h1 h2
    refine ⟨oneFp, ?_, by decide⟩
    have hr : r = 1 ∨ r = 2 := by omega
    rcases hr with rfl | rfl <;> rfl
  have hfp2 : ∀ r, 1 ≤ r → r ≤ 2 → r ≠ 2 → (c3wInput r).fp2.isSome = true := by
    intro r h1 h2 h3
    have hr : r = 1 := by omega
    subst hr
    rfl
  have hfp3 : ∀ r, 1 ≤ r → r ≤ 2 → (c3wInput r).fp3.isSome = true := by
    intro r h1 h2
    have hr : r = 1 ∨ r = 2 := by omega
    rcases hr with rfl | rfl <;> rfl
  have hq : ∀ r, 1 ≤ r → r ≤ 2 → ∃ q, (c3wInput r).quali = some q ∧ getQualiData q ≠ [] := by
    intro r h1 h2
    refine ⟨oneQuali, ?_, by decide⟩
    have hr : r = 1 ∨ r = 2 := by omega
    rcases hr with rfl | rfl <;> rfl
  have hrc : ∀ r, 1 ≤ r → r ≤ 2 →
      ∃ rs t, (c3wInput r).race = some rs ∧ getRaceData rs = some t := by
    intro r h1 h2
    refine ⟨oneRace, sortLe (fun a b => optLe a.finishingPosition b.finishingPosition)
      (oneRace.results.map (raceRowOf oneRace (some 100))), ?_, by decide⟩
    have hr : r = 1 ∨ r = 2 := by omega
    rcases hr with rfl | rfl <;> rfl
  obtain ⟨histL, blocksL, histN, blocksN, blkN, hok, hlen, _, _, _, _, _, hcols⟩ :=
    c3_missing_session_amended c3wInput 2 2 2 (by omega) (by omega) (by decide)
      hfp1 hfp2 hfp3 hq hrc
  exact ⟨by decide, ⟨histL, blocksL, hok, hlen⟩, hcols⟩
